import Mathlib

/-!
# ProVA — verification of the excel_module pipeline

Shallow embedding of the data-handling core of the ProVA repository
(`excel_module/core.py`, `excel_module/planner.py`, `excel_module/commands.py`)
together with proofs of the specified properties.

Modelling conventions:
* A pandas cell is a `Val`: missing (`na`), a string, a rational number
  (exact model of the floats the code manipulates), or a date (abstract
  timestamp).  A pandas column is a `Col` (label, dtype, cell list); a
  DataFrame is the ordered list of its columns (`Frame`).
* Machine floats are modelled by `ℚ`; the fractions the code compares
  (`Series.notnull().mean()` against `0.5` / `0.6`) are stated with integer
  cross-multiplication, which is exact.
* `pd.to_datetime` (with or without an explicit format string) is an external
  parser; it is modelled by an oracle of per-cell success predicates
  (`DateOracle`), one per explicit format plus one for the lenient general
  parser.  Everything the code does with the parse results (the threshold
  logic) is embedded exactly.
-/

deriving instance DecidableEq for Except

namespace ProVA

/-- A single cell of a DataFrame: missing (NaN/None/NaT), a string, a number
(floats modelled exactly by `ℚ`), or a date (abstract timestamp). -/
inductive Val where
  | na : Val
  | vstr : String → Val
  | vnum : ℚ → Val
  | vdate : Int → Val
deriving DecidableEq, Repr

/-- The pandas dtype of a column: `object` (text), a numeric dtype
(`int64`/`float64`), or a native date dtype (`datetime64`/period). -/
inductive Dtype where
  | object : Dtype
  | numeric : Dtype
  | datetime : Dtype
deriving DecidableEq, Repr

/-- One named column of a DataFrame. -/
structure Col where
  name : String
  dtype : Dtype
  cells : List Val
deriving DecidableEq, Repr

/-- A DataFrame: the ordered list of its columns. -/
abbrev Frame := List Col

/-- `True` exactly on the missing cell (pandas `isna`). -/
def isNA : Val → Bool
  | .na => true
  | _ => false

/-! ## String helpers (Python `str.strip` and `str.replace`)

`str.strip()` removes leading and trailing whitespace; `str.replace(a, b)`
with one-character patterns maps each occurrence of `a` to `b`. -/

/-- Drop leading and trailing whitespace of a character list. -/
def stripChars (l : List Char) : List Char :=
  ((l.dropWhile Char.isWhitespace).reverse.dropWhile Char.isWhitespace).reverse

/-- Python `s.strip()`: drop leading and trailing whitespace characters. -/
def pyStrip (s : String) : String :=
  ⟨stripChars s.data⟩

/-- Python `s.replace(a, b)` for one-character `a`, `b`. -/
def replCh (a b : Char) (s : String) : String :=
  ⟨s.data.map fun c => if c = a then b else c⟩

/-- Header normalisation applied to one column label
(`str(c).strip().replace("\n", " ").replace("\r", " ")` in
`core.normalize_headers`). -/
def normName (s : String) : String :=
  replCh '\r' ' ' (replCh '\n' ' ' (pyStrip s))

/-! ## Numeric coercion (`pd.to_numeric(..., errors="coerce")`)

The code first strips thousands separators and currency symbols with
`str.replace(r"[,$]", "", regex=True)` and then calls `pd.to_numeric`.
The numeric literals accepted are modelled as plain decimal literals with an
optional sign and optional fractional part (scientific notation, which none
of the specified behaviours exercises, is not modelled). -/

/-- Remove every `,` and `$` character (the regex `[,$]` → `""`). -/
def stripCommaDollar (s : String) : String :=
  ⟨s.data.filter fun c => ¬(c = ',' ∨ c = '$')⟩

/-- Value of a digit list read in base 10. -/
def digitsVal (l : List Char) : ℕ :=
  l.foldl (fun a c => a * 10 + (c.toNat - 48)) 0

/-- Parse an unsigned decimal literal: digits, optionally followed by `.` and
further digits; at least one digit overall. -/
def parseUnsigned (cs : List Char) : Option ℚ :=
  let intPart := cs.takeWhile Char.isDigit
  let rest := cs.dropWhile Char.isDigit
  match rest with
  | [] => if intPart.isEmpty then none else some (digitsVal intPart : ℚ)
  | '.' :: frac =>
      if frac.all Char.isDigit ∧ ¬(intPart.isEmpty ∧ frac.isEmpty) then
        some ((digitsVal intPart : ℚ) + (digitsVal frac : ℚ) / (10 ^ frac.length))
      else none
  | _ => none

/-- Parse a signed decimal literal (the successful outcomes of
`pd.to_numeric(string, errors="coerce")`). -/
def parseNum (s : String) : Option ℚ :=
  match s.data with
  | '-' :: rest => (parseUnsigned rest).map (fun q => -q)
  | '+' :: rest => parseUnsigned rest
  | cs => parseUnsigned cs

/-! ## `core.clean_data` -/

/-- Maximum column length: `len(df)` for the rectangular frames pandas
produces. -/
def nrows (f : Frame) : ℕ :=
  (f.map fun c => c.cells.length).foldr Nat.max 0

/-- Cell of column `c` at row index `i` (missing when out of range). -/
def cellAt (c : Col) (i : ℕ) : Val :=
  c.cells.getD i .na

/-- Row `i` holds at least one non-missing value. -/
def rowHasData (f : Frame) (i : ℕ) : Bool :=
  f.any fun c => !(isNA (cellAt c i))

/-- Indices of the rows kept by `df.dropna(how="all")`. -/
def keepRows (f : Frame) : List ℕ :=
  (List.range (nrows f)).filter fun i => rowHasData f i

/-- `df.dropna(how="all")`: drop the rows whose cells are all missing. -/
def dropEmptyRows (f : Frame) : Frame :=
  f.map fun c => { c with cells := (keepRows f).map (cellAt c) }

/-- A column holds at least one non-missing value. -/
def colHasData (c : Col) : Bool :=
  c.cells.any fun v => !(isNA v)

/-- `df.dropna(axis=1, how="all")`: drop the columns whose cells are all
missing (pandas keeps a column exactly when its non-missing count is
positive, so a zero-row column is dropped as well). -/
def dropEmptyCols (f : Frame) : Frame :=
  f.filter colHasData

/-- Header normalisation of one column. -/
def renameCol (c : Col) : Col :=
  { c with name := normName c.name }

/-- `core.normalize_headers`: copy the frame and normalise every label. -/
def normalize_headers (f : Frame) : Frame :=
  f.map renameCol

/-- The per-cell trim `lambda v: v.strip() if isinstance(v, str) else v`. -/
def trimVal : Val → Val
  | .vstr s => .vstr (pyStrip s)
  | v => v

/-- Trim the string cells of one column. -/
def trimColCells (c : Col) : Col :=
  if c.dtype = Dtype.object then { c with cells := c.cells.map trimVal } else c

/-- The string-trim loop of `clean_data` (runs on the `object` columns). -/
def trimStrings (f : Frame) : Frame :=
  f.map trimColCells

/-- One cell of `pd.to_numeric(df[c].astype(str).str.replace(r"[,$]", "",
regex=True), errors="coerce")`: a missing cell stringifies to `"nan"` which
`to_numeric` maps back to NaN; a string parses after `,`/`$` removal or
coerces to NaN; a number survives the `str` round-trip; a date's string form
is not numeric. -/
def coerceCell : Val → Val
  | .na => .na
  | .vstr s =>
      match parseNum (stripCommaDollar s) with
      | some q => .vnum q
      | none => .na
  | .vnum q => .vnum q
  | .vdate _ => .na

/-- The numeric-coercion step of `clean_data` on one column: an `object`
column is replaced by its coercion exactly when `cleaned.notnull().mean() >
0.5`, i.e. when strictly more than half of all its cells parse. -/
def coerceNumericCol (c : Col) : Col :=
  if c.dtype = Dtype.object then
    if 2 * ((c.cells.map coerceCell).countP fun v => !(isNA v)) > c.cells.length then
      { c with dtype := Dtype.numeric, cells := c.cells.map coerceCell }
    else c
  else c

/-- The numeric (non-missing `vnum`) values of a cell list. -/
def numsOf (cells : List Val) : List ℚ :=
  cells.filterMap fun v =>
    match v with
    | Val.vnum q => some q
    | _ => none

/-- Insertion into a sorted list (ascending). -/
def insertSorted (x : ℚ) : List ℚ → List ℚ
  | [] => [x]
  | y :: ys => if x ≤ y then x :: y :: ys else y :: insertSorted x ys

/-- Ascending insertion sort. -/
def sortQ (l : List ℚ) : List ℚ :=
  l.foldr insertSorted []

/-- `Series.median()` (skipna): middle of the sorted values, the average of
the two middle values for an even count, NaN for an empty series. -/
def medianQ (l : List ℚ) : Val :=
  let s := sortQ l
  if s.length = 0 then .na
  else if s.length % 2 = 1 then .vnum (s.getD (s.length / 2) 0)
  else .vnum ((s.getD (s.length / 2 - 1) 0 + s.getD (s.length / 2) 0) / 2)

/-- `Series.mean()` (skipna): NaN for an empty series. -/
def meanValQ (l : List ℚ) : Val :=
  if l.isEmpty then .na else .vnum (l.sum / l.length)

/-- The fill value chosen by `clean_data` for one numeric column:
median / mean / `0` according to the `fill_numeric` string (any string other
than `"median"` and `"mean"` selects `0`, as in the source's `else`). -/
def fillValFor (strategy : String) (l : List ℚ) : Val :=
  if strategy = "median" then medianQ l
  else if strategy = "mean" then meanValQ l
  else .vnum 0

/-- `df[c].fillna(fill_val)` on a cell list (filling with NaN is a no-op,
which the `.na` fill value reproduces). -/
def fillApply (strategy : String) (cells : List Val) : List Val :=
  cells.map fun v => if isNA v then fillValFor strategy (numsOf cells) else v

/-- The numeric-fill step of `clean_data` on one column. -/
def fillCol (strategy : String) (c : Col) : Col :=
  if c.dtype = Dtype.numeric then { c with cells := fillApply strategy c.cells } else c

/-- The numeric-fill loop of `clean_data` (runs on the numeric columns). -/
def fillNumericCols (strategy : String) (f : Frame) : Frame :=
  f.map (fillCol strategy)

/-- `core.clean_data`: drop all-missing rows and columns, normalise headers,
trim strings, coerce numeric-like text columns, fill numeric missing
values. -/
def clean_data (df : Frame) (fill_numeric : String) : Frame :=
  fillNumericCols fill_numeric
    (List.map coerceNumericCol
      (trimStrings
        (normalize_headers
          (dropEmptyCols
            (dropEmptyRows df)))))

/-! ## `core.detect_column_types` and `core._try_parse_dates`

`pd.to_datetime` is external; its per-cell success is modelled by an oracle:
one predicate per explicit format in the `formats` list of
`_try_parse_dates`, plus one for the lenient general parser of the fallback.
A predicate returning `true` on a cell means that cell parses (is non-NaT in
the result); `parsed.notnull().mean()` is then the fraction of `true` cells.
-/

/-- The external date parsers: the explicit-format parsers, in the order of
the `formats` list of `_try_parse_dates`, and the lenient general parser. -/
structure DateOracle where
  fmts : List (Val → Bool)
  general : Val → Bool

/-- Number of cells a parser succeeds on (`parsed.notnull().sum()`). -/
def okCount (p : Val → Bool) (cells : List Val) : ℕ :=
  cells.countP p

/-- `core._try_parse_dates`: return the parse by the first explicit format
whose success fraction exceeds `0.6` (`parsed.notnull().mean() > 0.6`,
stated as `5 * successes > 3 * length`); otherwise the general parser's
parse.  The result is represented by the winning parser. -/
def tryParseDates (O : DateOracle) (cells : List Val) : Val → Bool :=
  match O.fmts.find? (fun p => 5 * okCount p cells > 3 * cells.length) with
  | some p => p
  | none => O.general

/-- The classification a column receives in `detect_column_types`. -/
inductive ColClass where
  | date : ColClass
  | numeric : ColClass
  | categorical : ColClass
deriving DecidableEq, Repr

/-- The branch `detect_column_types` takes for one column: native numeric
dtype → numeric; native date dtype → date; otherwise date exactly when the
parse returned by `_try_parse_dates` satisfies `parsed.notnull().mean() >=
0.6` (stated as `10 * successes ≥ 6 * length`; the mean of an empty series
is NaN, which compares `False`, hence the non-empty guard); otherwise
categorical. -/
def classifyCol (O : DateOracle) (c : Col) : ColClass :=
  if c.dtype = Dtype.numeric then ColClass.numeric
  else if c.dtype = Dtype.datetime then ColClass.date
  else if c.cells.length ≠ 0 ∧
      10 * okCount (tryParseDates O c.cells) c.cells ≥ 6 * c.cells.length then
    ColClass.date
  else ColClass.categorical

/-- The result dictionary of `detect_column_types`. -/
structure ColumnTypes where
  date_cols : List String
  numeric_cols : List String
  categorical_cols : List String
deriving DecidableEq, Repr

/-- `core.detect_column_types`: one pass over the columns, appending each
column's label to exactly one of the three lists (written as structural
recursion; the order of each list matches the source's append loop). -/
def detect_column_types (O : DateOracle) : Frame → ColumnTypes
  | [] => ⟨[], [], []⟩
  | c :: rest =>
      let r := detect_column_types O rest
      match classifyCol O c with
      | ColClass.date => ⟨c.name :: r.date_cols, r.numeric_cols, r.categorical_cols⟩
      | ColClass.numeric => ⟨r.date_cols, c.name :: r.numeric_cols, r.categorical_cols⟩
      | ColClass.categorical => ⟨r.date_cols, r.numeric_cols, c.name :: r.categorical_cols⟩

/-! ## `core.detect_outliers_zscore`

`ser = pd.to_numeric(df[column], errors="coerce")`; then
`std = ser.std(ddof=0) if ser.std(ddof=0) != 0 else 1.0` and the mask is
`((ser - mean) / std).abs() > z_thresh`.  The population standard deviation
is `sqrt` of the population variance, so it is zero exactly when the
variance is zero; to stay in `ℚ` the comparison `|x - mean| / sqrt(var) >
t` is stated squared, `(x - mean)^2 > t^2 * var`, which is equivalent for
the non-negative thresholds the function is used with (default `3.0`).
NaN cells yield NaN z-scores, which compare `False`. -/

/-- Mean of a value list (guarded against the empty list by the caller). -/
def meanQ (l : List ℚ) : ℚ :=
  l.sum / l.length

/-- Population variance (`ddof=0`). -/
def popVarQ (l : List ℚ) : ℚ :=
  (l.map fun x => (x - meanQ l) ^ 2).sum / l.length

/-- `pd.to_numeric(cell, errors="coerce")` without the `[,$]` stripping of
`clean_data`: numbers pass through, numeric-literal strings parse,
everything else coerces to NaN. -/
def toNumCell : Val → Option ℚ
  | Val.vnum q => some q
  | Val.vstr s => parseNum s
  | _ => none

/-- Outlier test for one parsed value, given the mean `m`, the population
variance `v` and the threshold `t`: the divisor is `1.0` when the standard
deviation is zero, i.e. when `v = 0`. -/
def zFlag (m v t : ℚ) (x : ℚ) : Bool :=
  if v = 0 then decide (|x - m| > t) else decide ((x - m) ^ 2 > t ^ 2 * v)

/-- `core.detect_outliers_zscore` on a column: the boolean outlier mask.
An all-NaN (or empty) series has NaN mean and NaN std; every comparison is
then `False`, which the empty-values branch reproduces. -/
def detect_outliers_zscore (c : Col) (z_thresh : ℚ) : List Bool :=
  let parsed := c.cells.map toNumCell
  let vals := parsed.filterMap id
  if vals.isEmpty then parsed.map fun _ => false
  else
    parsed.map fun o =>
      match o with
      | none => false
      | some x => zFlag (meanQ vals) (popVarQ vals) z_thresh x

/-! ## `planner.py` -/

/-- The labels of a frame (`df.columns`). -/
def colNames (f : Frame) : List String :=
  f.map Col.name

/-- `planner._numeric_columns`: labels of the natively numeric columns. -/
def numericColumns (f : Frame) : List String :=
  colNames (f.filter fun c => c.dtype == Dtype.numeric)

/-- `Series.nunique(dropna=True)`: the number of distinct non-missing
values. -/
def nuniqueDropna (cells : List Val) : ℕ :=
  ((cells.filter fun v => !(isNA v)).dedup).length

/-- `planner._categorical_columns` (with the default `max_unique = 20`):
text columns with more than 1 and at most 20 distinct non-missing values. -/
def categoricalColumns (f : Frame) : List String :=
  colNames (f.filter fun c =>
    c.dtype == Dtype.object &&
    decide (1 < nuniqueDropna c.cells) && decide (nuniqueDropna c.cells ≤ 20))

/-- `planner._date_columns`: labels of the natively datetime columns. -/
def dateColumns (f : Frame) : List String :=
  colNames (f.filter fun c => c.dtype == Dtype.datetime)

/-- `df[name]` for a label known to be present (a default column otherwise;
the planner only looks columns up under an `in df.columns` guard). -/
def getCol (f : Frame) (n : String) : Col :=
  (f.find? fun c => c.name == n).getD ⟨"", Dtype.object, []⟩

/-- `planner.auto_chart_type`: line for a datetime axis, column for at most
6 distinct category values, bar otherwise (the metric series is passed by
the source but unused). -/
def auto_chart_type (metricCol catCol : Col) : String :=
  if catCol.dtype == Dtype.datetime then "line"
  else if nuniqueDropna catCol.cells ≤ 6 then "column"
  else "bar"

/-- The KPI dictionary of `planner.compute_basic_kpis`: record count and
sum / mean / min / max of the metric column (all `skipna`; the sum of an
all-missing series is `0`, its mean / min / max are NaN). -/
structure Kpis where
  records : ℕ
  total : Val
  average : Val
  low : Val
  high : Val
deriving DecidableEq, Repr

/-- `Series.min()` (skipna). -/
def kpiMin (l : List ℚ) : Val :=
  match l with
  | [] => .na
  | x :: xs => .vnum (xs.foldl min x)

/-- `Series.max()` (skipna). -/
def kpiMax (l : List ℚ) : Val :=
  match l with
  | [] => .na
  | x :: xs => .vnum (xs.foldl max x)

/-- A cell holding a number. -/
def isNumCell : Val → Bool
  | Val.vnum _ => true
  | _ => false

/-- Every non-missing cell is a number — the condition under which the
float conversions of `compute_basic_kpis` evaluate without raising.  A
native numeric column always satisfies it; an `object` column satisfies it
exactly when it holds only numbers (pandas object reductions over Python
floats succeed), while a string cell makes `s.sum()` / `float(s.sum())` /
`s.mean()` raise `TypeError` / `ValueError` (pandas ≥ 2.0 raises
`TypeError` even for all-numeric-looking strings in `mean`), and datetime
values make `s.sum()` raise `TypeError`. -/
def numericValued (cells : List Val) : Bool :=
  cells.all fun v => isNA v || isNumCell v

/-- `planner.compute_basic_kpis`: record count and sum / mean / min / max
of the metric column `s = df[metric]` (all `skipna`; the sum of an
all-missing series is `0`, its mean / min / max are NaN).  The uncaught
`TypeError` / `ValueError` raised by `float(s.sum())` / `s.mean()` on a
non-numeric metric column is modelled by `Except.error` carrying the
exception name. -/
def compute_basic_kpis (f : Frame) (metric : String) : Except String Kpis :=
  if numericValued (getCol f metric).cells then
    Except.ok
      ⟨nrows f, Val.vnum (numsOf (getCol f metric).cells).sum,
        meanValQ (numsOf (getCol f metric).cells),
        kpiMin (numsOf (getCol f metric).cells),
        kpiMax (numsOf (getCol f metric).cells)⟩
  else Except.error "TypeError: metric column is not numeric"

/-- One entry of the `pivots` list built by the planner
(`group_dates` is absent from the non-date pivots' dictionaries, modelled
as `false`). -/
structure PivotDef where
  name : String
  sheet : String
  rows : List String
  values : List (String × String)
  group_dates : Bool
deriving DecidableEq, Repr

/-- One entry of the `charts` list built by the planner. -/
structure ChartDef where
  pivot : String
  ctype : String
  placeholder : String
  title : String
deriving DecidableEq, Repr

/-- The dictionary returned by `plan_transactional_dashboard`. -/
structure DashboardSpec where
  pattern : String
  metric : String
  date_dim : Option String
  category_dim : Option String
  pivots : List PivotDef
  charts : List ChartDef
  slicers : List String
  kpis : Kpis
deriving DecidableEq, Repr

/-- Python `a or b` for an optional string `a`: `None` and `""` are falsy. -/
def pyOr (o : Option String) (dflt : String) : String :=
  match o with
  | some s => if s = "" then dflt else s
  | none => dflt

/-- The date / category dimension resolution
`x if x in df.columns else (fallback[0] if fallback else None)`
(`None in df.columns` is `False`, so a missing override also falls back). -/
def resolveDim (o : Option String) (names fallback : List String) : Option String :=
  match o with
  | some s => if s ∈ names then some s else fallback.head?
  | none => fallback.head?

/-- The single-entry list appended under a Python `if x:` guard on an
optional string (`None` and `""` are falsy). -/
def optPart {α : Type} (o : Option String) (g : String → α) : List α :=
  match o with
  | some s => if s ≠ "" then [g s] else []
  | none => []

/-- The `pivots` list of the plan: a date pivot when a date column resolved
(`if date_col:` — `None` and `""` falsy), a category pivot when a category
column resolved, and always the distribution pivot. -/
def planPivots (m : String) (dcol ccol : Option String) : List PivotDef :=
  optPart dcol (fun dc =>
    PivotDef.mk "MetricByDate" "Pivot_MetricByDate" [dc] [(m, "sum")] true) ++
  optPart ccol (fun cc =>
    PivotDef.mk "MetricByCategory" "Pivot_MetricByCategory" [cc] [(m, "sum")] false) ++
  [PivotDef.mk "MetricDistribution" "Pivot_MetricDistribution" [] [(m, "count")] false]

/-- The `charts` list of the plan: one chart per pivot built, bound to the
fixed placeholder tokens. -/
def planCharts (f : Frame) (m : String) (dcol ccol : Option String) : List ChartDef :=
  optPart dcol (fun dc =>
    ChartDef.mk "MetricByDate" (auto_chart_type (getCol f m) (getCol f dc))
      "CHART1_TL" (m ++ " Trend")) ++
  optPart ccol (fun cc =>
    ChartDef.mk "MetricByCategory" (auto_chart_type (getCol f m) (getCol f cc))
      "CHART2_TL" (m ++ " by " ++ cc)) ++
  [ChartDef.mk "MetricDistribution" "column" "CHART3_TL" "Record Count"]

/-- The `slicers` list of the plan: category column then date column, each
only when it resolved. -/
def planSlicers (dcol ccol : Option String) : List String :=
  optPart ccol (fun cc => cc) ++ optPart dcol (fun dc => dc)

/-- `planner.plan_transactional_dashboard`.  `PlannerError` is modelled by
`Except.error` carrying the message.  `df.empty` is `True` when either axis
has length zero.  The metric falls back to `numeric_cols[0]` only when the
caller-supplied value is falsy (`metric or numeric_cols[0]`); a truthy
metric absent from the columns is an error.  The uncaught exception a
non-numeric metric column raises inside `compute_basic_kpis` propagates
out of `plan` (as its `Except.error`); the pivot / chart / slicer lists
built before that call are pure, so the observable result is
unaffected by the call's position. -/
def plan_transactional_dashboard (f : Frame) (metric date_col category_col : Option String) :
    Except String DashboardSpec :=
  if f.isEmpty ∨ nrows f = 0 then Except.error "Input DataFrame is empty"
  else
    let numeric_cols := numericColumns f
    if numeric_cols.isEmpty then Except.error "No numeric columns found"
    else
      let m := pyOr metric numeric_cols.headI
      if m ∈ colNames f then
        let dcol := resolveDim date_col (colNames f) (dateColumns f)
        let ccol := resolveDim category_col (colNames f) (categoricalColumns f)
        match compute_basic_kpis f m with
        | Except.error e => Except.error e
        | Except.ok k =>
            Except.ok
              { pattern := "transactional"
                metric := m
                date_dim := dcol
                category_dim := ccol
                pivots := planPivots m dcol ccol
                charts := planCharts f m dcol ccol
                slicers := planSlicers dcol ccol
                kpis := k }
      else Except.error ("Metric column '" ++ m ++ "' not found")

/-! ## `commands.Session`: load / clean and the fail-safe save

The xlwings/COM layer is external; its distinct failure points are modelled
by a `SaveEnv` of success bits: `wb.save`, the COM `SaveAs`, and the pandas
`df.to_excel` fallback.  The file system maps a path to the kind of file
last written there: a native workbook (charts and pivots retained) or a flat
tabular export carrying exactly the written frame. -/

/-- What a successful write leaves at a path. -/
inductive FileContent where
  | native : FileContent
  | flat : Frame → FileContent
deriving DecidableEq

/-- Outcomes of the external save operations. -/
structure SaveEnv where
  saveOk : Bool
  saveAsOk : Bool
  toExcelOk : Bool
deriving DecidableEq, Repr

/-- The `Session` attributes `_safe_save` reads and writes. -/
structure SessionSt where
  df : Option Frame
  path : Option String
  hasApp : Bool
  hasWb : Bool
  wbName : String
deriving DecidableEq, Repr

/-- Python truthiness of `self.path` (`None` and `""` falsy). -/
def pathTruthy : Option String → Bool
  | some s => s != ""
  | none => false

/-- List-level string comparison for Python `str.startswith` (first argument
the candidate pattern, second the scanned characters). -/
def listStarts : List Char → List Char → Bool
  | [], _ => true
  | _ :: _, [] => false
  | a :: t, b :: u => a == b && listStarts t u

/-- Python `s.startswith(pat)`. -/
def pyStarts (s pat : String) : Bool :=
  listStarts pat.data s.data

/-- The `need_saveas` heuristic of `_safe_save`: a target path is set and
the workbook still carries a temporary name (`Book*` or `~*`). -/
def needSaveAs (st : SessionSt) : Bool :=
  pathTruthy st.path && (pyStarts st.wbName "Book" || pyStarts st.wbName "~")

/-- Whether the whole native-save `try` block of `_safe_save` raises: with
no workbook every attempt raises; otherwise the attempted branch
(`SaveAs` when `need_saveas`, else `wb.save`) must fail and so must the
final COM `SaveAs` retry of the inner `except`. -/
def nativeSaveRaises (env : SaveEnv) (st : SessionSt) : Bool :=
  !st.hasWb || (if needSaveAs st then !env.saveAsOk else !env.saveOk && !env.saveAsOk)

/-- Result of `_safe_save`: the returned boolean, the session afterwards,
and the file system afterwards. -/
structure SaveOut where
  ok : Bool
  st : SessionSt
  fs : String → Option FileContent

/-- `commands.Session._safe_save`.  On native success the workbook is saved
at the bound path (at its current location when `self.path is None`,
modelled as no visible change).  When the native save raises, the workbook
is closed and the app quit (handles dropped even if `close`/`quit` raise,
via the inner `finally`), then `df.to_excel(path, index=False)` writes the
whole in-memory frame at the path — provided a frame and a truthy path are
held and the write does not itself raise. -/
def safe_save (env : SaveEnv) (st : SessionSt) (fs : String → Option FileContent) : SaveOut :=
  if !(nativeSaveRaises env st) then
    { ok := true
      st := st
      fs := fun p =>
        match st.path with
        | some q => if p = q then some FileContent.native else fs p
        | none => fs p }
  else
    let st' : SessionSt := { st with hasWb := false, hasApp := false }
    match st.df, st.path with
    | some d, some p =>
        if p ≠ "" then
          if env.toExcelOk then
            { ok := true, st := st', fs := fun r => if r = p then some (FileContent.flat d) else fs r }
          else { ok := false, st := st', fs := fs }
        else { ok := false, st := st', fs := fs }
    | some _, none => { ok := false, st := st', fs := fs }
    | none, _ => { ok := false, st := st', fs := fs }

/-- The exceptions `Session.load` / `Session.clean` can raise. -/
inductive SessError where
  | fileNotFound : String → SessError
  | noDataLoaded : SessError
deriving DecidableEq, Repr

/-- `Session.load(path)` followed by `Session.clean(fill_numeric)` against a
disk mapping paths to stored frames: `load` raises `FileNotFoundError` when
the path is absent and otherwise stores the loaded frame, after which
`clean` cannot raise (`self.df` is set) and returns `clean_data` of it. -/
def loadThenClean (disk : String → Option Frame) (path strategy : String) :
    Except SessError Frame :=
  match disk path with
  | none => Except.error (SessError.fileNotFound path)
  | some d => Except.ok (clean_data d strategy)

/-! ## Mutation model for `clean_data` / `normalize_headers`

The caller's binding and the function's local `df` binding are tracked
together with whether they alias the same object.  `df = df.copy()`
replaces the local binding by a fresh object (`shared := false`); statements
of the form `df = f(df)` rebind the local name only; statements of the form
`df[c] = ...` / `df.columns = ...` mutate the object the local name points
to, which is the caller's object exactly when still shared. -/

/-- Caller binding, local `df` binding, and whether they alias. -/
structure PyRef where
  caller : Frame
  df : Frame
  shared : Bool

/-- `df = df.copy()`. -/
def pyCopy (r : PyRef) : PyRef :=
  { r with shared := false }

/-- `df = f(df)`: rebinding, never visible to the caller. -/
def pyRebind (g : Frame → Frame) (r : PyRef) : PyRef :=
  { r with df := g r.df }

/-- An in-place update of the object bound to `df`: visible to the caller
exactly when the binding is still shared. -/
def pyMutate (g : Frame → Frame) (r : PyRef) : PyRef :=
  { caller := if r.shared then g r.caller else r.caller
    df := g r.df
    shared := r.shared }

/-- `core.normalize_headers` as executed: `df = df.copy()` then the in-place
column assignment. -/
def normalize_headers_prog (r : PyRef) : PyRef :=
  pyMutate (List.map renameCol) (pyCopy r)

/-- `core.clean_data` as executed: `df = df.copy()`, the two `dropna`
rebindings, the `normalize_headers` rebinding, then the in-place trim,
coercion and fill loops. -/
def clean_data_prog (strategy : String) (r : PyRef) : PyRef :=
  pyMutate (fillNumericCols strategy)
    (pyMutate (List.map coerceNumericCol)
      (pyMutate trimStrings
        (pyRebind normalize_headers
          (pyRebind dropEmptyCols
            (pyRebind dropEmptyRows (pyCopy r))))))

/-! ## General list helpers -/

/-- A map by a function that fixes every member is the identity. -/
theorem map_id_of_fixed {α : Type} (g : α → α) (l : List α)
    (h : ∀ c ∈ l, g c = c) : l.map g = l := by
  induction l with
  | nil => rfl
  | cons a t ih =>
      rw [List.map_cons, h a (List.mem_cons_self a t),
        ih fun c hc => h c (List.mem_cons_of_mem a hc)]

/-- Reading every position of a list back with `getD` reproduces it. -/
theorem range_map_getD {α : Type} (l : List α) (d : α) :
    (List.range l.length).map (fun i => l.getD i d) = l := by
  induction l with
  | nil => rfl
  | cons a t ih =>
      rw [List.length_cons, List.range_succ_eq_map, List.map_cons, List.map_map]
      have h2 : ((fun i => (a :: t).getD i d) ∘ Nat.succ) = fun i => t.getD i d := by
        funext i; rfl
      rw [h2, ih]
      simp

/-- `getD` through a `map`, inside the range. -/
theorem getD_map_lt {α β : Type} (g : α → β) (l : List α) (i : ℕ)
    (h : i < l.length) (d : β) :
    (l.map g).getD i d = g l[i] := by
  have h' : i < (l.map g).length := by simpa using h
  rw [List.getD_eq_getElem?_getD, List.getElem?_eq_getElem h']
  simp

/-- `filterMap id` over a replicated `some`. -/
theorem filterMap_id_replicate_some {α : Type} (n : ℕ) (a : α) :
    (List.replicate n (some a)).filterMap id = List.replicate n a := by
  induction n with
  | zero => rfl
  | succ k ih => simp [List.replicate_succ, List.filterMap_cons, ih]

/-! ## Claim C10 — `detect_outliers_zscore` is safe on constant columns -/

/-- Mean of a constant list. -/
theorem meanQ_replicate (n : ℕ) (hn : n ≠ 0) (q : ℚ) :
    meanQ (List.replicate n q) = q := by
  unfold meanQ
  rw [List.sum_replicate, List.length_replicate, nsmul_eq_mul]
  have : (n : ℚ) ≠ 0 := Nat.cast_ne_zero.mpr hn
  field_simp

/-- Population variance of a constant list. -/
theorem popVarQ_replicate (n : ℕ) (hn : n ≠ 0) (q : ℚ) :
    popVarQ (List.replicate n q) = 0 := by
  unfold popVarQ
  rw [List.map_replicate, meanQ_replicate n hn q]
  simp

/-- C10: `detect_outliers_zscore` never divides by zero — a zero population
standard deviation is replaced by the divisor `1.0`, so on every constant
numeric column (default threshold `3.0`) the returned mask flags no
element. -/
theorem detect_outliers_zscore_const (nm : String) (dt : Dtype) (n : ℕ) (q : ℚ) :
    detect_outliers_zscore ⟨nm, dt, List.replicate n (Val.vnum q)⟩ 3 =
      List.replicate n false := by
  cases n with
  | zero => rfl
  | succ k =>
      have hvals : ((List.replicate (k + 1) (Val.vnum q)).map toNumCell).filterMap id
          = List.replicate (k + 1) q := by
        rw [List.map_replicate]
        exact filterMap_id_replicate_some _ _
      simp only [detect_outliers_zscore]
      rw [hvals]
      rw [if_neg (by simp [List.replicate_succ])]
      simp only [List.map_replicate]
      show List.replicate (k + 1)
          (zFlag (meanQ (List.replicate (k + 1) q)) (popVarQ (List.replicate (k + 1) q)) 3 q)
        = List.replicate (k + 1) false
      rw [meanQ_replicate (k + 1) (Nat.succ_ne_zero k) q,
        popVarQ_replicate (k + 1) (Nat.succ_ne_zero k) q]
      have hz : zFlag q 0 3 q = false := by
        unfold zFlag
        rw [if_pos rfl]
        simp
      rw [hz]

/-! ## Claim C9 — `clean_data` and `normalize_headers` do not mutate their
argument -/

/-- C9: `clean_data` and `normalize_headers` never mutate the caller's
DataFrame: each copies first (`df = df.copy()`), so after the call the
caller's object is unchanged while the returned object carries the cleaned
(resp. renamed) data. -/
theorem clean_data_no_mutation (d : Frame) (s : String) :
    (clean_data_prog s ⟨d, d, true⟩).caller = d
    ∧ (clean_data_prog s ⟨d, d, true⟩).df = clean_data d s
    ∧ (normalize_headers_prog ⟨d, d, true⟩).caller = d
    ∧ (normalize_headers_prog ⟨d, d, true⟩).df = normalize_headers d := by
  refine ⟨rfl, rfl, rfl, rfl⟩

/-! ## Claim C1 — the fail-safe save protocol of `Session._safe_save` -/

/-- C1: whenever the native host save raises, `_safe_save` closes the
workbook and quits the host app (both handles dropped), returns `True`
exactly when the in-memory frame and a usable path are held and the pandas
fallback write succeeds (`False` otherwise, a fatal failure for the
callers, which raise on it), and on fallback success the file at the
intended path is the flat export of the entire in-memory dataset. -/
theorem safe_save_fallback (env : SaveEnv) (st : SessionSt)
    (fs : String → Option FileContent) (h : nativeSaveRaises env st = true) :
    (safe_save env st fs).st.hasWb = false
    ∧ (safe_save env st fs).st.hasApp = false
    ∧ ((safe_save env st fs).ok = true ↔
        (env.toExcelOk = true ∧ ∃ d p, st.df = some d ∧ st.path = some p ∧ p ≠ ""))
    ∧ (∀ d p, st.df = some d → st.path = some p → p ≠ "" →
        (safe_save env st fs).ok = true →
        (safe_save env st fs).fs p = some (FileContent.flat d)) := by
  unfold safe_save
  rw [h]
  simp only [Bool.not_true, Bool.false_eq_true, if_false]
  rcases hdf : st.df with _ | d <;> rcases hp : st.path with _ | p
  · simp
  · simp
  · simp
  · by_cases hpe : p = ""
    · subst hpe
      simp
    · by_cases hex : env.toExcelOk = true
      · refine ⟨by simp [hpe, hex], by simp [hpe, hex], by simp [hpe, hex], ?_⟩
        intro d' p' hd' hp' hpe' hok
        cases hd'
        cases hp'
        simp [hpe, hex]
      · have hex' : env.toExcelOk = false := by
          cases hx : env.toExcelOk
          · rfl
          · exact absurd hx hex
        simp [hpe, hex']

/-- Concrete instance for `safe_save_fallback`. -/
def saveEnvW : SaveEnv := ⟨false, false, true⟩

/-- Concrete session for `safe_save_fallback`: a loaded one-column frame,
an intended output path, and live handles on a temp-named workbook. -/
def saveStW : SessionSt :=
  ⟨some [⟨"a", Dtype.numeric, [Val.vnum 1]⟩], some "out.xlsx", true, true, "Book1"⟩

/-- Witness for `safe_save_fallback` at a concrete failing-save session. -/
theorem safe_save_fallback_witness :
    (safe_save saveEnvW saveStW (fun _ => none)).st.hasWb = false
    ∧ (safe_save saveEnvW saveStW (fun _ => none)).st.hasApp = false
    ∧ ((safe_save saveEnvW saveStW (fun _ => none)).ok = true ↔
        (saveEnvW.toExcelOk = true ∧
          ∃ d p, saveStW.df = some d ∧ saveStW.path = some p ∧ p ≠ ""))
    ∧ (∀ d p, saveStW.df = some d → saveStW.path = some p → p ≠ "" →
        (safe_save saveEnvW saveStW (fun _ => none)).ok = true →
        (safe_save saveEnvW saveStW (fun _ => none)).fs p = some (FileContent.flat d)) :=
  safe_save_fallback saveEnvW saveStW (fun _ => none) (by decide)

/-! ## Claim C2 — empty datasets and `load` / `clean` / `plan` -/

/-- A zero-row frame cleans to the empty frame: every column is dropped by
`dropna(axis=1, how="all")`. -/
theorem clean_data_of_nrows_zero (d : Frame) (s : String) (h : nrows d = 0) :
    clean_data d s = [] := by
  have h1 : dropEmptyRows d = d.map fun c => { c with cells := [] } := by
    unfold dropEmptyRows keepRows
    rw [h]
    rfl
  have h2 : dropEmptyCols (d.map fun c => { c with cells := [] }) = [] := by
    unfold dropEmptyCols
    rw [List.filter_eq_nil_iff]
    intro c hc
    rcases List.mem_map.mp hc with ⟨c0, _, rfl⟩
    simp [colHasData]
  unfold clean_data
  rw [h1, h2]
  rfl

/-- C2 (amended): on an empty (zero-row) dataset on disk, `load` followed by
`clean` succeeds — no `DataError` exists in the code and `clean_data` never
raises — returning the cleaned (empty) frame; the emptiness only fails at
`plan()`, which raises `PlannerError("Input DataFrame is empty")`. -/
theorem load_clean_empty_amended (disk : String → Option Frame)
    (path strategy : String) (d : Frame)
    (h1 : disk path = some d) (h2 : nrows d = 0) :
    loadThenClean disk path strategy = Except.ok (clean_data d strategy)
    ∧ plan_transactional_dashboard (clean_data d strategy) none none none
        = Except.error "Input DataFrame is empty" := by
  constructor
  · unfold loadThenClean
    rw [h1]
  · rw [clean_data_of_nrows_zero d strategy h2]
    rfl

/-- Concrete disk for the C2 instance: one stored zero-row single-column
frame. -/
def diskW : String → Option Frame :=
  fun p => if p = "data.csv" then some [⟨"x", Dtype.object, []⟩] else none

/-- Witness for `load_clean_empty_amended` at the concrete empty dataset. -/
theorem load_clean_empty_amended_witness :
    loadThenClean diskW "data.csv" "median"
        = Except.ok (clean_data [⟨"x", Dtype.object, []⟩] "median")
    ∧ plan_transactional_dashboard (clean_data [⟨"x", Dtype.object, []⟩] "median")
        none none none = Except.error "Input DataFrame is empty" :=
  load_clean_empty_amended diskW "data.csv" "median" [⟨"x", Dtype.object, []⟩]
    (by decide) (by decide)

/-- C2 counterexample to the claim as stated: loading the stored empty
dataset and cleaning it does not fail at all — it returns `Except.ok` with
the (empty) cleaned frame, so no `DataError` is raised by `load` followed
by `clean`. -/
theorem load_clean_empty_cex :
    loadThenClean diskW "data.csv" "median" = Except.ok ([] : Frame) := by
  decide

/-! ## Claim C3 — `detect_column_types` partitions the columns -/

/-- The list of `detect_column_types` output a class selects. -/
def classList (r : ColumnTypes) : ColClass → List String
  | ColClass.date => r.date_cols
  | ColClass.numeric => r.numeric_cols
  | ColClass.categorical => r.categorical_cols

/-- Membership in a class list of `detect_column_types` is exactly having a
column of that classification. -/
theorem mem_detect_iff (O : DateOracle) (f : Frame) (k : ColClass) (n : String) :
    n ∈ classList (detect_column_types O f) k ↔
      ∃ c ∈ f, c.name = n ∧ classifyCol O c = k := by
  induction f with
  | nil => cases k <;> simp [detect_column_types, classList]
  | cons c rest ih =>
      rcases hcl : classifyCol O c with _ | _ | _ <;> cases k <;>
        simp only [detect_column_types, hcl, classList, List.mem_cons] at ih ⊢ <;>
        constructor <;> intro hx
      · rcases hx with rfl | hx
        · exact ⟨c, Or.inl rfl, rfl, hcl⟩
        · rcases (ih.mp hx) with ⟨c', hc', hn, hk⟩
          exact ⟨c', Or.inr hc', hn, hk⟩
      · rcases hx with ⟨c', (rfl | hc'), hn, hk⟩
        · exact Or.inl hn.symm
        · exact Or.inr (ih.mpr ⟨c', hc', hn, hk⟩)
      · rcases (ih.mp hx) with ⟨c', hc', hn, hk⟩
        exact ⟨c', Or.inr hc', hn, hk⟩
      · rcases hx with ⟨c', (rfl | hc'), hn, hk⟩
        · rw [hcl] at hk
          cases hk
        · exact ih.mpr ⟨c', hc', hn, hk⟩
      · rcases (ih.mp hx) with ⟨c', hc', hn, hk⟩
        exact ⟨c', Or.inr hc', hn, hk⟩
      · rcases hx with ⟨c', (rfl | hc'), hn, hk⟩
        · rw [hcl] at hk
          cases hk
        · exact ih.mpr ⟨c', hc', hn, hk⟩
      · rcases (ih.mp hx) with ⟨c', hc', hn, hk⟩
        exact ⟨c', Or.inr hc', hn, hk⟩
      · rcases hx with ⟨c', (rfl | hc'), hn, hk⟩
        · rw [hcl] at hk
          cases hk
        · exact ih.mpr ⟨c', hc', hn, hk⟩
      · rcases hx with rfl | hx
        · exact ⟨c, Or.inl rfl, rfl, hcl⟩
        · rcases (ih.mp hx) with ⟨c', hc', hn, hk⟩
          exact ⟨c', Or.inr hc', hn, hk⟩
      · rcases hx with ⟨c', (rfl | hc'), hn, hk⟩
        · exact Or.inl hn.symm
        · exact Or.inr (ih.mpr ⟨c', hc', hn, hk⟩)
      · rcases (ih.mp hx) with ⟨c', hc', hn, hk⟩
        exact ⟨c', Or.inr hc', hn, hk⟩
      · rcases hx with ⟨c', (rfl | hc'), hn, hk⟩
        · rw [hcl] at hk
          cases hk
        · exact ih.mpr ⟨c', hc', hn, hk⟩
      · rcases (ih.mp hx) with ⟨c', hc', hn, hk⟩
        exact ⟨c', Or.inr hc', hn, hk⟩
      · rcases hx with ⟨c', (rfl | hc'), hn, hk⟩
        · rw [hcl] at hk
          cases hk
        · exact ih.mpr ⟨c', hc', hn, hk⟩
      · rcases (ih.mp hx) with ⟨c', hc', hn, hk⟩
        exact ⟨c', Or.inr hc', hn, hk⟩
      · rcases hx with ⟨c', (rfl | hc'), hn, hk⟩
        · rw [hcl] at hk
          cases hk
        · exact ih.mpr ⟨c', hc', hn, hk⟩
      · rcases hx with rfl | hx
        · exact ⟨c, Or.inl rfl, rfl, hcl⟩
        · rcases (ih.mp hx) with ⟨c', hc', hn, hk⟩
          exact ⟨c', Or.inr hc', hn, hk⟩
      · rcases hx with ⟨c', (rfl | hc'), hn, hk⟩
        · exact Or.inl hn.symm
        · exact Or.inr (ih.mpr ⟨c', hc', hn, hk⟩)

/-- Distinctly labelled frames carry at most one column per label. -/
theorem eq_of_name_eq_of_nodup {f : Frame} (h : (f.map Col.name).Nodup)
    {c₁ c₂ : Col} (h₁ : c₁ ∈ f) (h₂ : c₂ ∈ f) (he : c₁.name = c₂.name) :
    c₁ = c₂ := by
  induction f with
  | nil => cases h₁
  | cons a t ih =>
      rw [List.map_cons, List.nodup_cons] at h
      rcases List.mem_cons.mp h₁ with rfl | h₁t
      · rcases List.mem_cons.mp h₂ with rfl | h₂t
        · rfl
        · exact absurd (he ▸ List.mem_map_of_mem Col.name h₂t) h.1
      · rcases List.mem_cons.mp h₂ with rfl | h₂t
        · exact absurd (he ▸ List.mem_map_of_mem Col.name h₁t) h.1
        · exact ih h.2 h₁t h₂t

/-- C3: for every distinctly-labelled frame, `detect_column_types` assigns
each column to exactly one of the three lists — their union is the column
set and they are pairwise disjoint.  (With duplicate labels the Python
`df[col]` lookup used inside `detect_column_types` returns a sub-DataFrame
and the function raises, so distinct labels are the domain of the claim.) -/
theorem detect_column_types_partition (O : DateOracle) (f : Frame)
    (hnd : (f.map Col.name).Nodup) (n : String) :
    (n ∈ colNames f ↔
      (n ∈ (detect_column_types O f).date_cols
        ∨ n ∈ (detect_column_types O f).numeric_cols
        ∨ n ∈ (detect_column_types O f).categorical_cols))
    ∧ ¬(n ∈ (detect_column_types O f).date_cols
        ∧ n ∈ (detect_column_types O f).numeric_cols)
    ∧ ¬(n ∈ (detect_column_types O f).date_cols
        ∧ n ∈ (detect_column_types O f).categorical_cols)
    ∧ ¬(n ∈ (detect_column_types O f).numeric_cols
        ∧ n ∈ (detect_column_types O f).categorical_cols) := by
  have hdate := mem_detect_iff O f ColClass.date n
  have hnum := mem_detect_iff O f ColClass.numeric n
  have hcat := mem_detect_iff O f ColClass.categorical n
  simp only [classList] at hdate hnum hcat
  refine ⟨?_, ?_, ?_, ?_⟩
  · constructor
    · intro hmem
      rcases List.mem_map.mp hmem with ⟨c, hc, rfl⟩
      rcases hk : classifyCol O c with _ | _ | _
      · exact Or.inl (hdate.mpr ⟨c, hc, rfl, hk⟩)
      · exact Or.inr (Or.inl (hnum.mpr ⟨c, hc, rfl, hk⟩))
      · exact Or.inr (Or.inr (hcat.mpr ⟨c, hc, rfl, hk⟩))
    · intro hmem
      rcases hmem with hm | hm | hm
      · rcases hdate.mp hm with ⟨c, hc, rfl, _⟩
        exact List.mem_map_of_mem Col.name hc
      · rcases hnum.mp hm with ⟨c, hc, rfl, _⟩
        exact List.mem_map_of_mem Col.name hc
      · rcases hcat.mp hm with ⟨c, hc, rfl, _⟩
        exact List.mem_map_of_mem Col.name hc
  · rintro ⟨h1, h2⟩
    rcases hdate.mp h1 with ⟨c₁, hc₁, hn₁, hk₁⟩
    rcases hnum.mp h2 with ⟨c₂, hc₂, hn₂, hk₂⟩
    cases eq_of_name_eq_of_nodup hnd hc₁ hc₂ (hn₁.trans hn₂.symm)
    rw [hk₁] at hk₂
    cases hk₂
  · rintro ⟨h1, h2⟩
    rcases hdate.mp h1 with ⟨c₁, hc₁, hn₁, hk₁⟩
    rcases hcat.mp h2 with ⟨c₂, hc₂, hn₂, hk₂⟩
    cases eq_of_name_eq_of_nodup hnd hc₁ hc₂ (hn₁.trans hn₂.symm)
    rw [hk₁] at hk₂
    cases hk₂
  · rintro ⟨h1, h2⟩
    rcases hnum.mp h1 with ⟨c₁, hc₁, hn₁, hk₁⟩
    rcases hcat.mp h2 with ⟨c₂, hc₂, hn₂, hk₂⟩
    cases eq_of_name_eq_of_nodup hnd hc₁ hc₂ (hn₁.trans hn₂.symm)
    rw [hk₁] at hk₂
    cases hk₂

/-- A concrete two-parser oracle for the C3 instance. -/
def oracleW : DateOracle :=
  ⟨[fun v => decide (v = Val.vstr "2021-01-01")], fun _ => false⟩

/-- A concrete mixed frame for the C3 instance. -/
def frameW3 : Frame :=
  [⟨"sales", Dtype.numeric, [Val.vnum 10]⟩,
   ⟨"region", Dtype.object, [Val.vstr "north"]⟩,
   ⟨"day", Dtype.datetime, [Val.vdate 0]⟩]

/-- Witness for `detect_column_types_partition` at a concrete frame. -/
theorem detect_column_types_partition_witness :
    ("region" ∈ colNames frameW3 ↔
      ("region" ∈ (detect_column_types oracleW frameW3).date_cols
        ∨ "region" ∈ (detect_column_types oracleW frameW3).numeric_cols
        ∨ "region" ∈ (detect_column_types oracleW frameW3).categorical_cols))
    ∧ ¬("region" ∈ (detect_column_types oracleW frameW3).date_cols
        ∧ "region" ∈ (detect_column_types oracleW frameW3).numeric_cols)
    ∧ ¬("region" ∈ (detect_column_types oracleW frameW3).date_cols
        ∧ "region" ∈ (detect_column_types oracleW frameW3).categorical_cols)
    ∧ ¬("region" ∈ (detect_column_types oracleW frameW3).numeric_cols
        ∧ "region" ∈ (detect_column_types oracleW frameW3).categorical_cols) :=
  detect_column_types_partition oracleW frameW3 (by decide) "region"

/-! ## Claim C6 — the date-detection thresholds -/

/-- C6 (amended): a column that is neither natively numeric nor natively
date-typed is classified as a date column iff it is non-empty and either
some explicit format parses strictly more than 60% of its cells
(`mean > 0.6` in `_try_parse_dates`), or the lenient general parser reaches
at least 60% (`mean >= 0.6` in `detect_column_types`) — the two thresholds
are not the same: the explicit-format test is strict. -/
theorem classify_date_amended (O : DateOracle) (c : Col)
    (h1 : c.dtype ≠ Dtype.numeric) (h2 : c.dtype ≠ Dtype.datetime) :
    classifyCol O c = ColClass.date ↔
      (c.cells.length ≠ 0 ∧
        ((∃ p ∈ O.fmts, 5 * okCount p c.cells > 3 * c.cells.length)
          ∨ 10 * okCount O.general c.cells ≥ 6 * c.cells.length)) := by
  have key : (c.cells.length ≠ 0 ∧
        10 * okCount (tryParseDates O c.cells) c.cells ≥ 6 * c.cells.length) ↔
      (c.cells.length ≠ 0 ∧
        ((∃ p ∈ O.fmts, 5 * okCount p c.cells > 3 * c.cells.length)
          ∨ 10 * okCount O.general c.cells ≥ 6 * c.cells.length)) := by
    apply and_congr_right
    intro _
    unfold tryParseDates
    rcases hfind : O.fmts.find? (fun p => 5 * okCount p c.cells > 3 * c.cells.length)
        with _ | p
    · have hall := List.find?_eq_none.mp hfind
      constructor
      · intro hg
        exact Or.inr hg
      · rintro (⟨p, hp, hgt⟩ | hg)
        · exact absurd (by simpa using hgt) (by simpa using hall p hp)
        · exact hg
    · have hp := List.find?_some hfind
      have hmem := List.mem_of_find?_eq_some hfind
      have hgt : 5 * okCount p c.cells > 3 * c.cells.length := by simpa using hp
      constructor
      · intro _
        exact Or.inl ⟨p, hmem, hgt⟩
      · intro _
        show 10 * okCount p c.cells ≥ 6 * c.cells.length
        omega
  unfold classifyCol
  rw [if_neg h1, if_neg h2]
  rw [← key]
  by_cases hcond : (c.cells.length ≠ 0 ∧
      10 * okCount (tryParseDates O c.cells) c.cells ≥ 6 * c.cells.length)
  · simp [hcond]
  · simp [hcond]

/-- Object column for the `classify_date_amended` instance. -/
def colW6 : Col := ⟨"when", Dtype.object, [Val.vstr "2021-01-01"]⟩

/-- Oracle for the `classify_date_amended` instance: no explicit formats, a
general parser recognising the single cell. -/
def oracleW6 : DateOracle := ⟨[], fun v => decide (v = Val.vstr "2021-01-01")⟩

/-- Witness for `classify_date_amended` at a concrete column. -/
theorem classify_date_amended_witness :
    classifyCol oracleW6 colW6 = ColClass.date ↔
      (colW6.cells.length ≠ 0 ∧
        ((∃ p ∈ oracleW6.fmts, 5 * okCount p colW6.cells > 3 * colW6.cells.length)
          ∨ 10 * okCount oracleW6.general colW6.cells ≥ 6 * colW6.cells.length)) :=
  classify_date_amended oracleW6 colW6 (by decide) (by decide)

/-- An explicit format that parses exactly 3 of the 5 cells of `colC6`. -/
def fmtC6 : Val → Bool :=
  fun v => decide (v = Val.vstr "d1" ∨ v = Val.vstr "d2" ∨ v = Val.vstr "d3")

/-- A general parser that parses only 1 of the 5 cells of `colC6` (with real
pandas this arises when the lenient parser infers an incompatible format
from the first cell). -/
def genC6 : Val → Bool :=
  fun v => decide (v = Val.vstr "d1")

/-- Oracle and column on which the explicit format reaches exactly 60%. -/
def oracleC6 : DateOracle := ⟨[fmtC6], genC6⟩

/-- Five-cell text column: the explicit format parses exactly 3/5 = 60%. -/
def colC6 : Col :=
  ⟨"when", Dtype.object,
    [Val.vstr "d1", Val.vstr "d2", Val.vstr "d3", Val.vstr "x4", Val.vstr "x5"]⟩

/-- C6 counterexample to the claim as stated: an explicit format reaches the
claimed `≥60%` threshold (exactly 60%), yet the code classifies the column
as categorical, because `_try_parse_dates` demands strictly more than 60%
from the explicit formats and the general parser stays below 60%. -/
theorem classify_date_strict_cex :
    colC6.dtype ≠ Dtype.numeric ∧ colC6.dtype ≠ Dtype.datetime
    ∧ fmtC6 ∈ oracleC6.fmts
    ∧ 10 * okCount fmtC6 colC6.cells ≥ 6 * colC6.cells.length
    ∧ classifyCol oracleC6 colC6 = ColClass.categorical :=
  ⟨by decide, by decide, List.mem_cons_self _ _, by decide, by decide⟩

/-! ## Claim C5 — the numeric-coercion acceptance threshold -/

/-- The acceptance condition exactly as claim C5 words it (spec side, for
comparison with the source): at least 50% of the column's non-missing
values parse successfully as numbers after `,`/`$` stripping. -/
def specCoercionAccepts (cells : List Val) : Prop :=
  2 * ((cells.map coerceCell).countP fun v => !(isNA v))
    ≥ cells.countP fun v => !(isNA v)

/-- Text column on which the spec-side and code-side thresholds differ:
exactly half of its (all non-missing) values parse. -/
def colC5 : Col := ⟨"a", Dtype.object, [Val.vstr "1", Val.vstr "x"]⟩

/-- C5 counterexample to the claim as stated: the column `["1", "x"]` meets
the claimed acceptance condition (50% ≥ 50% of the non-missing values
parse), yet `clean_data` leaves the column untouched as text, because the
source demands `cleaned.notnull().mean() > 0.5` — strictly more than half
of all cells. -/
theorem clean_coercion_cex :
    specCoercionAccepts colC5.cells
    ∧ clean_data [colC5] "median" = [colC5] := by
  constructor
  · unfold specCoercionAccepts
    decide
  · decide

/-- C5 (amended): an `object` column is replaced by its numeric coercion
(after stripping `,` and `$`) iff strictly more than 50% of all its cells
(missing cells counted in the denominator as failures) parse; otherwise it
is left untouched.  The scenario-D column `["1,200", "$300", "NA"]` does
coerce to `[1200.0, 300.0, missing]` and the missing entry is filled with
the column median `750.0` under the `"median"` strategy. -/
theorem clean_coercion_amended (c : Col) (h : c.dtype = Dtype.object) :
    ((coerceNumericCol c).dtype = Dtype.numeric ↔
      2 * ((c.cells.map coerceCell).countP fun v => !(isNA v)) > c.cells.length)
    ∧ (¬(2 * ((c.cells.map coerceCell).countP fun v => !(isNA v)) > c.cells.length) →
        coerceNumericCol c = c)
    ∧ ((2 * ((c.cells.map coerceCell).countP fun v => !(isNA v)) > c.cells.length) →
        (coerceNumericCol c).cells = c.cells.map coerceCell)
    ∧ clean_data [⟨"amt", Dtype.object, [Val.vstr "1,200", Val.vstr "$300", Val.vstr "NA"]⟩]
        "median"
      = [⟨"amt", Dtype.numeric, [Val.vnum 1200, Val.vnum 300, Val.vnum 750]⟩] := by
  have hfill : fillValFor "median"
      (numsOf [Val.vnum 1200, Val.vnum 300, Val.na]) = Val.vnum 750 := by
    show medianQ [(1200 : ℚ), 300] = Val.vnum 750
    have hs : sortQ [(1200 : ℚ), 300] = [300, 1200] := by
      norm_num [sortQ, insertSorted]
    simp only [medianQ, hs]
    norm_num
  have hscen : clean_data
      [⟨"amt", Dtype.object, [Val.vstr "1,200", Val.vstr "$300", Val.vstr "NA"]⟩] "median"
      = [⟨"amt", Dtype.numeric,
          fillApply "median" [Val.vnum 1200, Val.vnum 300, Val.na]⟩] := by
    rfl
  refine ⟨?_, ?_, ?_, ?_⟩
  · unfold coerceNumericCol
    rw [if_pos h]
    by_cases hc : 2 * ((c.cells.map coerceCell).countP fun v => !(isNA v)) > c.cells.length
    · rw [if_pos hc]
      exact ⟨fun _ => hc, fun _ => rfl⟩
    · rw [if_neg hc]
      constructor
      · intro hx
        rw [h] at hx
        cases hx
      · intro hx
        exact absurd hx hc
  · intro hc
    unfold coerceNumericCol
    rw [if_pos h, if_neg hc]
  · intro hc
    unfold coerceNumericCol
    rw [if_pos h, if_pos hc]
  · rw [hscen]
    unfold fillApply
    simp only [hfill, List.map_cons, List.map_nil]
    simp [isNA]

/-- Witness for `clean_coercion_amended` at a concrete accepted column. -/
theorem clean_coercion_amended_witness :
    ((coerceNumericCol ⟨"v", Dtype.object, [Val.vstr "7"]⟩).dtype = Dtype.numeric ↔
      2 * (((⟨"v", Dtype.object, [Val.vstr "7"]⟩ : Col).cells.map coerceCell).countP
            fun v => !(isNA v))
        > (⟨"v", Dtype.object, [Val.vstr "7"]⟩ : Col).cells.length)
    ∧ (¬(2 * (((⟨"v", Dtype.object, [Val.vstr "7"]⟩ : Col).cells.map coerceCell).countP
            fun v => !(isNA v))
        > (⟨"v", Dtype.object, [Val.vstr "7"]⟩ : Col).cells.length) →
        coerceNumericCol ⟨"v", Dtype.object, [Val.vstr "7"]⟩
          = ⟨"v", Dtype.object, [Val.vstr "7"]⟩)
    ∧ ((2 * (((⟨"v", Dtype.object, [Val.vstr "7"]⟩ : Col).cells.map coerceCell).countP
            fun v => !(isNA v))
        > (⟨"v", Dtype.object, [Val.vstr "7"]⟩ : Col).cells.length) →
        (coerceNumericCol ⟨"v", Dtype.object, [Val.vstr "7"]⟩).cells
          = (⟨"v", Dtype.object, [Val.vstr "7"]⟩ : Col).cells.map coerceCell)
    ∧ clean_data [⟨"amt", Dtype.object, [Val.vstr "1,200", Val.vstr "$300", Val.vstr "NA"]⟩]
        "median"
      = [⟨"amt", Dtype.numeric, [Val.vnum 1200, Val.vnum 300, Val.vnum 750]⟩] :=
  clean_coercion_amended ⟨"v", Dtype.object, [Val.vstr "7"]⟩ (by decide)

/-! ## Claim C7 — metric resolution in the planner -/

/-- The head of a non-empty list is a member. -/
theorem headI_mem_of_ne_nil {α : Type} [Inhabited α] (l : List α) (h : l ≠ []) :
    l.headI ∈ l := by
  cases l with
  | nil => exact absurd rfl h
  | cons a t => exact List.mem_cons_self a t

/-- Numeric column labels are column labels. -/
theorem numericColumns_subset_colNames (f : Frame) (n : String)
    (h : n ∈ numericColumns f) : n ∈ colNames f := by
  unfold numericColumns colNames at h
  rcases List.mem_map.mp h with ⟨c, hc, rfl⟩
  show c.name ∈ f.map Col.name
  exact List.mem_map_of_mem Col.name (List.mem_of_mem_filter hc)

/-- Shape of a successful plan: when the guards pass and the KPI
computation does not raise, the planner returns exactly the spec record
built from the resolved metric and dimensions. -/
theorem plan_ok_shape (f : Frame) (mo dc cc : Option String)
    (hne : ¬(f.isEmpty ∨ nrows f = 0))
    (hnum : ¬(numericColumns f).isEmpty = true)
    (hmem : pyOr mo (numericColumns f).headI ∈ colNames f) (k : Kpis)
    (hk : compute_basic_kpis f (pyOr mo (numericColumns f).headI) = Except.ok k) :
    plan_transactional_dashboard f mo dc cc =
      Except.ok
        { pattern := "transactional"
          metric := pyOr mo (numericColumns f).headI
          date_dim := resolveDim dc (colNames f) (dateColumns f)
          category_dim := resolveDim cc (colNames f) (categoricalColumns f)
          pivots := planPivots (pyOr mo (numericColumns f).headI)
            (resolveDim dc (colNames f) (dateColumns f))
            (resolveDim cc (colNames f) (categoricalColumns f))
          charts := planCharts f (pyOr mo (numericColumns f).headI)
            (resolveDim dc (colNames f) (dateColumns f))
            (resolveDim cc (colNames f) (categoricalColumns f))
          slicers := planSlicers
            (resolveDim dc (colNames f) (dateColumns f))
            (resolveDim cc (colNames f) (categoricalColumns f))
          kpis := k } := by
  unfold plan_transactional_dashboard
  rw [if_neg hne, if_neg hnum, if_pos hmem, hk]

/-- Shape of a plan whose KPI computation raises: the exception
propagates. -/
theorem plan_kpi_error_shape (f : Frame) (mo dc cc : Option String)
    (hne : ¬(f.isEmpty ∨ nrows f = 0))
    (hnum : ¬(numericColumns f).isEmpty = true)
    (hmem : pyOr mo (numericColumns f).headI ∈ colNames f) (e : String)
    (hk : compute_basic_kpis f (pyOr mo (numericColumns f).headI) = Except.error e) :
    plan_transactional_dashboard f mo dc cc = Except.error e := by
  unfold plan_transactional_dashboard
  rw [if_neg hne, if_neg hnum, if_pos hmem, hk]

/-- C7 (amended): with a non-empty dataset that has numeric columns, the
planner resolves the metric to the caller-supplied (truthy) column exactly
when that column is present in the dataset — succeeding when that column
is numeric-valued, and raising out of the KPI computation
(`float(s.sum())` / `s.mean()`) when it is not; when no metric is supplied
it falls back to the first numeric column; but a caller-supplied column
absent from the dataset is a `PlannerError` ("Metric column ... not
found"), not a fallback. -/
theorem plan_metric_resolution (f : Frame) (s : String) (dc cc : Option String)
    (hne : ¬(f.isEmpty ∨ nrows f = 0)) (hnum : numericColumns f ≠ [])
    (hs : s ≠ "") :
    (s ∈ colNames f → numericValued (getCol f s).cells = true →
      ∃ spec, plan_transactional_dashboard f (some s) dc cc = Except.ok spec
        ∧ spec.metric = s)
    ∧ (s ∈ colNames f → numericValued (getCol f s).cells = false →
      plan_transactional_dashboard f (some s) dc cc
        = Except.error "TypeError: metric column is not numeric")
    ∧ (s ∉ colNames f →
      plan_transactional_dashboard f (some s) dc cc
        = Except.error ("Metric column '" ++ s ++ "' not found"))
    ∧ (numericValued (getCol f (numericColumns f).headI).cells = true →
      ∃ spec, plan_transactional_dashboard f none dc cc = Except.ok spec
        ∧ spec.metric = (numericColumns f).headI) := by
  have hnum' : ¬(numericColumns f).isEmpty = true := by
    simpa [List.isEmpty_iff] using hnum
  have hpyOr : pyOr (some s) (numericColumns f).headI = s := by
    show (if s = "" then (numericColumns f).headI else s) = s
    rw [if_neg hs]
  refine ⟨?_, ?_, ?_, ?_⟩
  · intro hmem hnv
    have hk : compute_basic_kpis f (pyOr (some s) (numericColumns f).headI)
        = Except.ok ⟨nrows f, Val.vnum (numsOf (getCol f s).cells).sum,
            meanValQ (numsOf (getCol f s).cells), kpiMin (numsOf (getCol f s).cells),
            kpiMax (numsOf (getCol f s).cells)⟩ := by
      rw [hpyOr]
      unfold compute_basic_kpis
      rw [if_pos hnv]
    refine ⟨_, plan_ok_shape f (some s) dc cc hne hnum'
      (by rw [hpyOr]; exact hmem) _ hk, ?_⟩
    exact hpyOr
  · intro hmem hnv
    apply plan_kpi_error_shape f (some s) dc cc hne hnum' (by rw [hpyOr]; exact hmem)
    rw [hpyOr]
    unfold compute_basic_kpis
    rw [if_neg (by simp [hnv])]
  · intro hmem
    unfold plan_transactional_dashboard
    rw [if_neg hne, if_neg hnum', if_neg (by rw [hpyOr]; exact hmem), hpyOr]
  · intro hnv
    have hmem : pyOr none (numericColumns f).headI ∈ colNames f := by
      show (numericColumns f).headI ∈ colNames f
      exact numericColumns_subset_colNames f _ (headI_mem_of_ne_nil _ hnum)
    have hpy0 : pyOr none (numericColumns f).headI = (numericColumns f).headI := rfl
    have hk : compute_basic_kpis f (pyOr none (numericColumns f).headI)
        = Except.ok ⟨nrows f,
            Val.vnum (numsOf (getCol f (numericColumns f).headI).cells).sum,
            meanValQ (numsOf (getCol f (numericColumns f).headI).cells),
            kpiMin (numsOf (getCol f (numericColumns f).headI).cells),
            kpiMax (numsOf (getCol f (numericColumns f).headI).cells)⟩ := by
      rw [hpy0]
      unfold compute_basic_kpis
      rw [if_pos hnv]
    exact ⟨_, plan_ok_shape f none dc cc hne hnum' hmem _ hk, rfl⟩

/-- Concrete frame for the C7 instance. -/
def frameW7 : Frame :=
  [⟨"sales", Dtype.numeric, [Val.vnum 5]⟩, ⟨"region", Dtype.object, [Val.vstr "n"]⟩]

/-- Witness for `plan_metric_resolution` at a concrete frame and metric. -/
theorem plan_metric_resolution_witness :
    ("sales" ∈ colNames frameW7 → numericValued (getCol frameW7 "sales").cells = true →
      ∃ spec, plan_transactional_dashboard frameW7 (some "sales") none none
          = Except.ok spec ∧ spec.metric = "sales")
    ∧ ("sales" ∈ colNames frameW7 → numericValued (getCol frameW7 "sales").cells = false →
      plan_transactional_dashboard frameW7 (some "sales") none none
        = Except.error "TypeError: metric column is not numeric")
    ∧ ("sales" ∉ colNames frameW7 →
      plan_transactional_dashboard frameW7 (some "sales") none none
        = Except.error ("Metric column '" ++ "sales" ++ "' not found"))
    ∧ (numericValued (getCol frameW7 (numericColumns frameW7).headI).cells = true →
      ∃ spec, plan_transactional_dashboard frameW7 none none none = Except.ok spec
        ∧ spec.metric = (numericColumns frameW7).headI) :=
  plan_metric_resolution frameW7 "sales" none none (by decide) (by decide) (by decide)

/-- Concrete frame for the C7 counterexample. -/
def frameC7 : Frame := [⟨"a", Dtype.numeric, [Val.vnum 1]⟩]

/-- C7 counterexample to the claim as stated: the dataset has a numeric
column `"a"`, the caller supplies the absent name `"zzz"`, and the planner
raises `PlannerError` instead of resolving the metric to the first numeric
column. -/
theorem plan_metric_cex :
    numericColumns frameC7 = ["a"]
    ∧ plan_transactional_dashboard frameC7 (some "zzz") none none
        = Except.error "Metric column 'zzz' not found" := by
  constructor
  · decide
  · decide

/-! ## Claim C4 — planner invariants on charts and pivots -/

/-- Membership in a guarded single-entry part. -/
theorem mem_optPart {α : Type} (o : Option String) (g : String → α) (a : α) :
    a ∈ optPart o g ↔ ∃ s, o = some s ∧ s ≠ "" ∧ a = g s := by
  rcases o with _ | s
  · simp [optPart]
  · by_cases hs : s ≠ ""
    · simp only [optPart, if_pos hs, List.mem_singleton]
      constructor
      · intro h
        exact ⟨s, rfl, hs, h⟩
      · rintro ⟨s', hs', _, rfl⟩
        cases hs'
        rfl
    · simp only [optPart, if_neg hs, List.not_mem_nil, false_iff]
      rintro ⟨s', hs', hne, _⟩
      cases hs'
      exact hs hne

/-- A guarded part holds at most one entry. -/
theorem optPart_length {α : Type} (o : Option String) (g : String → α) :
    (optPart o g).length ≤ 1 := by
  rcases o with _ | s
  · simp [optPart]
  · by_cases hs : s ≠ "" <;> simp [optPart, hs]

/-- The guards of two parts over the same optional agree. -/
theorem mem_optPart_of_mem {α β : Type} (o : Option String) (g : String → α)
    (g' : String → β) (a : α) (h : a ∈ optPart o g) : g' (o.getD "") ∈ optPart o g' := by
  rcases (mem_optPart o g a).mp h with ⟨s, rfl, hne, _⟩
  exact (mem_optPart (some s) g' _).mpr ⟨s, rfl, hne, rfl⟩

/-- At most three charts are ever planned. -/
theorem planCharts_card (f : Frame) (m : String) (dcol ccol : Option String) :
    (planCharts f m dcol ccol).length ≤ 3 := by
  unfold planCharts
  have h1 := optPart_length dcol (fun dc =>
    ChartDef.mk "MetricByDate" (auto_chart_type (getCol f m) (getCol f dc))
      "CHART1_TL" (m ++ " Trend"))
  have h2 := optPart_length ccol (fun cc =>
    ChartDef.mk "MetricByCategory" (auto_chart_type (getCol f m) (getCol f cc))
      "CHART2_TL" (m ++ " by " ++ cc))
  simp only [List.length_append, List.length_singleton]
  omega

/-- Every planned chart references a planned pivot by name. -/
theorem planCharts_refs (f : Frame) (m : String) (dcol ccol : Option String) :
    ∀ ch ∈ planCharts f m dcol ccol,
      ∃ pv ∈ planPivots m dcol ccol, pv.name = ch.pivot := by
  intro ch hch
  unfold planCharts at hch
  unfold planPivots
  rcases List.mem_append.mp hch with hx | hx
  · rcases List.mem_append.mp hx with hd | hc
    · rcases (mem_optPart _ _ _).mp hd with ⟨s, rfl, hne, rfl⟩
      refine ⟨PivotDef.mk "MetricByDate" "Pivot_MetricByDate" [s] [(m, "sum")] true, ?_, rfl⟩
      exact List.mem_append.mpr (Or.inl (List.mem_append.mpr (Or.inl
        ((mem_optPart (some s) _ _).mpr ⟨s, rfl, hne, rfl⟩))))
    · rcases (mem_optPart _ _ _).mp hc with ⟨s, rfl, hne, rfl⟩
      refine ⟨PivotDef.mk "MetricByCategory" "Pivot_MetricByCategory" [s] [(m, "sum")] false,
        ?_, rfl⟩
      exact List.mem_append.mpr (Or.inl (List.mem_append.mpr (Or.inr
        ((mem_optPart (some s) _ _).mpr ⟨s, rfl, hne, rfl⟩))))
  · rw [List.mem_singleton] at hx
    subst hx
    refine ⟨PivotDef.mk "MetricDistribution" "Pivot_MetricDistribution" [] [(m, "count")] false,
      ?_, rfl⟩
    exact List.mem_append.mpr (Or.inr (List.mem_singleton.mpr rfl))

/-- The placeholder tokens of the planned charts are pairwise distinct. -/
theorem planCharts_tokens_nodup (f : Frame) (m : String) (dcol ccol : Option String) :
    ((planCharts f m dcol ccol).map ChartDef.placeholder).Nodup := by
  rcases dcol with _ | dc <;> rcases ccol with _ | cc <;>
    simp only [planCharts, optPart] <;> (try split_ifs) <;> simp

/-- C4: every successfully planned `DashboardSpec` has at most three charts,
every chart's pivot reference names a planned pivot, and the charts'
placeholder tokens are pairwise distinct. -/
theorem plan_dashboard_invariants (f : Frame) (mo dc cc : Option String)
    (spec : DashboardSpec)
    (h : plan_transactional_dashboard f mo dc cc = Except.ok spec) :
    spec.charts.length ≤ 3
    ∧ (∀ ch ∈ spec.charts, ∃ pv ∈ spec.pivots, pv.name = ch.pivot)
    ∧ (spec.charts.map ChartDef.placeholder).Nodup := by
  have h1 : ¬(f.isEmpty ∨ nrows f = 0) := by
    intro hc
    unfold plan_transactional_dashboard at h
    rw [if_pos hc] at h
    cases h
  have h2 : ¬(numericColumns f).isEmpty = true := by
    intro hc
    unfold plan_transactional_dashboard at h
    rw [if_neg h1, if_pos hc] at h
    cases h
  have h3 : pyOr mo (numericColumns f).headI ∈ colNames f := by
    by_contra hc
    unfold plan_transactional_dashboard at h
    rw [if_neg h1, if_neg h2, if_neg hc] at h
    cases h
  rcases hkq : compute_basic_kpis f (pyOr mo (numericColumns f).headI) with e | k
  · exfalso
    rw [plan_kpi_error_shape f mo dc cc h1 h2 h3 e hkq] at h
    cases h
  · rw [plan_ok_shape f mo dc cc h1 h2 h3 k hkq, Except.ok.injEq] at h
    subst h
    exact ⟨planCharts_card _ _ _ _, planCharts_refs _ _ _ _, planCharts_tokens_nodup _ _ _ _⟩

/-- Concrete frame for the C4 instance: dataset with a date column, a
two-value category column and a numeric metric column. -/
def frameW4 : Frame :=
  [⟨"day", Dtype.datetime, [Val.vdate 0, Val.vdate 1]⟩,
   ⟨"region", Dtype.object, [Val.vstr "n", Val.vstr "s"]⟩,
   ⟨"sales", Dtype.numeric, [Val.vnum 3, Val.vnum 4]⟩]

/-- Witness for `plan_dashboard_invariants`: the concrete frame plans
successfully and the invariants hold on the planned spec. -/
theorem plan_dashboard_invariants_witness :
    ∃ spec, plan_transactional_dashboard frameW4 none none none = Except.ok spec
      ∧ (spec.charts.length ≤ 3
        ∧ (∀ ch ∈ spec.charts, ∃ pv ∈ spec.pivots, pv.name = ch.pivot)
        ∧ (spec.charts.map ChartDef.placeholder).Nodup) := by
  have hpy0 : pyOr none (numericColumns frameW4).headI
      = (numericColumns frameW4).headI := rfl
  have hk : compute_basic_kpis frameW4 (pyOr none (numericColumns frameW4).headI)
      = Except.ok ⟨nrows frameW4,
          Val.vnum (numsOf (getCol frameW4 (numericColumns frameW4).headI).cells).sum,
          meanValQ (numsOf (getCol frameW4 (numericColumns frameW4).headI).cells),
          kpiMin (numsOf (getCol frameW4 (numericColumns frameW4).headI).cells),
          kpiMax (numsOf (getCol frameW4 (numericColumns frameW4).headI).cells)⟩ := by
    rw [hpy0]
    unfold compute_basic_kpis
    rw [if_pos (by decide)]
  have hplan := plan_ok_shape frameW4 none none none (by decide) (by decide) (by decide) _ hk
  exact ⟨_, hplan, plan_dashboard_invariants frameW4 none none none _ hplan⟩

/-! ## Claim C8 — idempotence of `clean_data`

The proof characterises the output of `clean_data` (`CleanedFrame` below)
and shows each stage of a second run is the identity on such frames. -/

/-- The head of a non-empty `dropWhile` result falsifies the predicate. -/
theorem dropWhile_head_false {α : Type} (p : α → Bool) :
    ∀ (l : List α) (x : α) (xs : List α), l.dropWhile p = x :: xs → p x = false := by
  intro l
  induction l with
  | nil =>
      intro x xs h
      cases h
  | cons a t ih =>
      intro x xs h
      rw [List.dropWhile_cons] at h
      by_cases hp : p a = true
      · rw [if_pos hp] at h
        exact ih x xs h
      · rw [if_neg hp] at h
        cases h
        simpa using hp

/-- `dropWhile` is the identity when the head falsifies the predicate. -/
theorem dropWhile_eq_self_of_head {α : Type} (p : α → Bool) (x : α) (xs : List α)
    (h : p x = false) : (x :: xs).dropWhile p = x :: xs := by
  rw [List.dropWhile_cons, if_neg (by simp [h])]

/-- The last character of a stripped list is not whitespace. -/
theorem stripChars_last_false (l : List Char) (x : Char) (xs : List Char)
    (h : (stripChars l).reverse = x :: xs) : Char.isWhitespace x = false := by
  unfold stripChars at h
  rw [List.reverse_reverse] at h
  exact dropWhile_head_false _ _ x xs h

/-- The first character of a stripped list is not whitespace. -/
theorem stripChars_head_false (l : List Char) (x : Char) (xs : List Char)
    (h : stripChars l = x :: xs) : Char.isWhitespace x = false := by
  unfold stripChars at h
  set l1 := l.dropWhile Char.isWhitespace with hl1
  have hdec : l1 = (l1.reverse.dropWhile Char.isWhitespace).reverse
      ++ (l1.reverse.takeWhile Char.isWhitespace).reverse := by
    have hsplit := List.takeWhile_append_dropWhile (p := Char.isWhitespace) (l := l1.reverse)
    calc l1 = l1.reverse.reverse := (List.reverse_reverse l1).symm
    _ = (l1.reverse.takeWhile Char.isWhitespace
          ++ l1.reverse.dropWhile Char.isWhitespace).reverse := by rw [hsplit]
    _ = (l1.reverse.dropWhile Char.isWhitespace).reverse
          ++ (l1.reverse.takeWhile Char.isWhitespace).reverse := by rw [List.reverse_append]
  rw [h, List.cons_append] at hdec
  exact dropWhile_head_false Char.isWhitespace l x _ (hl1.symm.trans hdec)

/-- Stripping is the identity when both ends are not whitespace. -/
theorem stripChars_eq_self (l : List Char)
    (h1 : ∀ x xs, l = x :: xs → Char.isWhitespace x = false)
    (h2 : ∀ x xs, l.reverse = x :: xs → Char.isWhitespace x = false) :
    stripChars l = l := by
  unfold stripChars
  have d1 : l.dropWhile Char.isWhitespace = l := by
    cases hc : l with
    | nil => rfl
    | cons x xs => exact dropWhile_eq_self_of_head _ x xs (h1 x xs hc)
  rw [d1]
  have d2 : l.reverse.dropWhile Char.isWhitespace = l.reverse := by
    cases hc : l.reverse with
    | nil => rfl
    | cons x xs => exact dropWhile_eq_self_of_head _ x xs (h2 x xs hc)
  rw [d2, List.reverse_reverse]

/-- Stripping is idempotent. -/
theorem stripChars_idem (l : List Char) : stripChars (stripChars l) = stripChars l :=
  stripChars_eq_self (stripChars l) (stripChars_head_false l) (stripChars_last_false l)

/-- Python `strip` is idempotent. -/
theorem pyStrip_idem (s : String) : pyStrip (pyStrip s) = pyStrip s :=
  congrArg String.mk (stripChars_idem s.data)

/-- The newline swap never produces a newline. -/
theorem nlSwap_ne_nl (c : Char) : (if c = '\n' then ' ' else c) ≠ '\n' := by
  by_cases h : c = '\n'
  · rw [if_pos h]
    decide
  · rw [if_neg h]
    exact h

/-- The carriage-return swap never produces a carriage return. -/
theorem crSwap_ne_cr (c : Char) : (if c = '\r' then ' ' else c) ≠ '\r' := by
  by_cases h : c = '\r'
  · rw [if_pos h]
    decide
  · rw [if_neg h]
    exact h

/-- The carriage-return swap preserves "is not a newline". -/
theorem crSwap_ne_nl (c : Char) (h : c ≠ '\n') : (if c = '\r' then ' ' else c) ≠ '\n' := by
  by_cases hc : c = '\r'
  · rw [if_pos hc]
    decide
  · rw [if_neg hc]
    exact h

/-- Both swaps fix non-whitespace characters. -/
theorem swaps_fix_nonws (c : Char) (h : Char.isWhitespace c = false) :
    (if (if c = '\n' then ' ' else c) = '\r' then ' '
      else (if c = '\n' then ' ' else c)) = c := by
  have hnl : c ≠ '\n' := by
    intro hc
    rw [hc] at h
    exact absurd h (by decide)
  have hcr : c ≠ '\r' := by
    intro hc
    rw [hc] at h
    exact absurd h (by decide)
  rw [if_neg hnl, if_neg hcr]

/-- Character-level statement of `normName`'s idempotence: stripping the
swapped, stripped list changes nothing, and the two swaps fix every
character they have produced. -/
theorem normName_chars (l : List Char) :
    ((stripChars (((stripChars l).map fun c => if c = '\n' then ' ' else c).map
          fun c => if c = '\r' then ' ' else c)).map
        fun c => if c = '\n' then ' ' else c).map
      (fun c => if c = '\r' then ' ' else c)
    = ((stripChars l).map fun c => if c = '\n' then ' ' else c).map
        fun c => if c = '\r' then ' ' else c := by
  set S := stripChars l with hS
  set L := (S.map fun c => if c = '\n' then ' ' else c).map
      fun c => if c = '\r' then ' ' else c with hL
  have hmemL : ∀ c ∈ L, ∃ c0, c = (if (if c0 = '\n' then ' ' else c0) = '\r' then ' '
      else (if c0 = '\n' then ' ' else c0)) := by
    intro c hc
    rw [hL] at hc
    rcases List.mem_map.mp hc with ⟨c1, hc1, rfl⟩
    rcases List.mem_map.mp hc1 with ⟨c0, _, rfl⟩
    exact ⟨c0, rfl⟩
  have hA : stripChars L = L := by
    apply stripChars_eq_self
    · intro x xs h
      cases hSc : S with
      | nil =>
          rw [hL, hSc] at h
          cases h
      | cons y ys =>
          have hy : Char.isWhitespace y = false := by
            apply stripChars_head_false l y ys
            rw [← hS]
            exact hSc
          rw [hL, hSc, List.map_cons, List.map_cons] at h
          injection h with hx _
          rw [← hx, swaps_fix_nonws y hy]
          exact hy
    · intro x xs h
      rw [hL, ← List.map_reverse, ← List.map_reverse] at h
      cases hSc : S.reverse with
      | nil =>
          rw [hSc] at h
          cases h
      | cons y ys =>
          have hy : Char.isWhitespace y = false := by
            apply stripChars_last_false l y ys
            rw [← hS]
            exact hSc
          rw [hSc, List.map_cons, List.map_cons] at h
          injection h with hx _
          rw [← hx, swaps_fix_nonws y hy]
          exact hy
  rw [hA]
  have hB : (L.map fun c => if c = '\n' then ' ' else c) = L := by
    apply map_id_of_fixed
    intro c hc
    rcases hmemL c hc with ⟨c0, rfl⟩
    exact if_neg (crSwap_ne_nl _ (nlSwap_ne_nl c0))
  rw [hB]
  apply map_id_of_fixed
  intro c hc
  rcases hmemL c hc with ⟨c0, rfl⟩
  exact if_neg (crSwap_ne_cr _)

/-- `normName` is idempotent: the stripped result has no edge whitespace
and the two swaps have removed every `\n` / `\r`, so a second
normalisation changes nothing. -/
theorem normName_idem (s : String) : normName (normName s) = normName s :=
  congrArg String.mk (normName_chars s.data)

/-- Trimming a cell twice is trimming it once. -/
theorem trimVal_idem (v : Val) : trimVal (trimVal v) = trimVal v := by
  cases v with
  | vstr s => exact congrArg Val.vstr (pyStrip_idem s)
  | na => rfl
  | vnum q => rfl
  | vdate d => rfl

/-- Trimming preserves missingness. -/
theorem isNA_trimVal (v : Val) : isNA (trimVal v) = isNA v := by
  cases v <;> rfl

/-- A coerced cell is missing or a number. -/
theorem coerceCell_shape (v : Val) :
    coerceCell v = Val.na ∨ ∃ q, coerceCell v = Val.vnum q := by
  cases v with
  | na => exact Or.inl rfl
  | vstr s =>
      have hred : coerceCell (Val.vstr s) =
          match parseNum (stripCommaDollar s) with
          | some q => Val.vnum q
          | none => Val.na := rfl
      rw [hred]
      cases parseNum (stripCommaDollar s) with
      | none => exact Or.inl rfl
      | some q => exact Or.inr ⟨q, rfl⟩
  | vnum q => exact Or.inr ⟨q, rfl⟩
  | vdate d => exact Or.inl rfl

/-- A cell is missing exactly when it is `Val.na`. -/
theorem isNA_eq_true_iff (v : Val) : isNA v = true ↔ v = Val.na := by
  cases v <;> simp [isNA]

/-- Inserting into a sorted list grows it by one. -/
theorem insertSorted_length (x : ℚ) (l : List ℚ) :
    (insertSorted x l).length = l.length + 1 := by
  induction l with
  | nil => rfl
  | cons y ys ih =>
      unfold insertSorted
      by_cases h : x ≤ y
      · rw [if_pos h]
        rfl
      · rw [if_neg h]
        simp [ih]

/-- Sorting preserves length. -/
theorem sortQ_length (l : List ℚ) : (sortQ l).length = l.length := by
  induction l with
  | nil => rfl
  | cons x xs ih =>
      unfold sortQ at ih ⊢
      rw [List.foldr_cons, insertSorted_length, ih]
      rfl

/-- The fill value is missing or a number. -/
theorem fillValFor_shape (s : String) (l : List ℚ) :
    fillValFor s l = Val.na ∨ ∃ q, fillValFor s l = Val.vnum q := by
  unfold fillValFor medianQ meanValQ
  dsimp only
  split_ifs <;> first
    | exact Or.inl rfl
    | exact Or.inr ⟨_, rfl⟩

/-- The fill value of a non-empty numeric list is never missing. -/
theorem fillValFor_not_na (s : String) (l : List ℚ) (h : l ≠ []) :
    isNA (fillValFor s l) = false := by
  unfold fillValFor
  split_ifs with h1 h2
  · unfold medianQ
    dsimp only
    have hlen : ¬((sortQ l).length = 0) := by
      rw [sortQ_length]
      simpa using h
    rw [if_neg hlen]
    split_ifs <;> rfl
  · unfold meanValQ
    rw [if_neg (by simpa [List.isEmpty_iff] using h)]
    rfl
  · rfl

/-- Filling twice with the same strategy is filling once. -/
theorem fillApply_idem (s : String) (cells : List Val) :
    fillApply s (fillApply s cells) = fillApply s cells := by
  rcases fillValFor_shape s (numsOf cells) with hna | ⟨q, hq⟩
  · have hid : fillApply s cells = cells := by
      unfold fillApply
      apply map_id_of_fixed
      intro v hv
      by_cases h : isNA v = true
      · rw [if_pos h, hna]
        exact ((isNA_eq_true_iff v).mp h).symm
      · rw [if_neg h]
    rw [hid, hid]
  · have hnona : ∀ v ∈ fillApply s cells, isNA v = false := by
      intro v hv
      unfold fillApply at hv
      rcases List.mem_map.mp hv with ⟨w, hw, rfl⟩
      by_cases h : isNA w = true
      · rw [if_pos h, hq]
        rfl
      · rw [if_neg h]
        simpa using h
    unfold fillApply
    apply map_id_of_fixed
    intro v hv
    rw [if_neg (by simp [hnona v hv])]

/-- Filling preserves length. -/
theorem fillApply_length (s : String) (cells : List Val) :
    (fillApply s cells).length = cells.length := by
  unfold fillApply
  exact List.length_map _ _

/-- Filling fixes non-missing cells pointwise. -/
theorem fillApply_getD (s : String) (cells : List Val) (i : ℕ) (h : i < cells.length)
    (hv : isNA (cells.getD i Val.na) = false) :
    (fillApply s cells).getD i Val.na = cells.getD i Val.na := by
  have hget : cells.getD i Val.na = cells[i] := by
    rw [List.getD_eq_getElem?_getD, List.getElem?_eq_getElem h]
    rfl
  have hfalse : ¬(isNA cells[i] = true) := by
    rw [hget] at hv
    intro hcontra
    rw [hcontra] at hv
    cases hv
  unfold fillApply
  rw [getD_map_lt _ cells i h, if_neg hfalse, hget]

/-- Numeric members survive a fill. -/
theorem mem_fillApply_of_mem (s : String) (cells : List Val) (v : Val)
    (hv : v ∈ cells) (hna : isNA v = false) : v ∈ fillApply s cells := by
  unfold fillApply
  have : (if isNA v then fillValFor s (numsOf cells) else v) = v := by
    rw [if_neg (by simp [hna])]
  rw [← this]
  exact List.mem_map_of_mem _ hv

/-- Non-missing coerced cells contribute a numeric value. -/
theorem numsOf_ne_nil_of_countP (T : List Val)
    (h : 0 < (T.map coerceCell).countP fun v => !(isNA v)) :
    numsOf (T.map coerceCell) ≠ [] := by
  rcases List.countP_pos_iff.mp h with ⟨v, hv, hp⟩
  rcases List.mem_map.mp hv with ⟨w, hw, rfl⟩
  rcases coerceCell_shape w with hna | ⟨q, hq⟩
  · rw [hna] at hp
    cases hp
  · intro hnil
    have : q ∈ numsOf (T.map coerceCell) := by
      unfold numsOf
      exact List.mem_filterMap.mpr ⟨coerceCell w, hv, by rw [hq]⟩
    rw [hnil] at this
    cases this

/-! ### The cleaned-frame characterisation -/

/-- Everything a frame produced by `clean_data` satisfies: rectangular of
row count `n`; every column holds data; every row holds data; labels are
`normName`-fixed; `object` columns are trim-fixed and fail the coercion
test; numeric columns are fill-fixed. -/
def CleanedFrame (s : String) (n : ℕ) (f : Frame) : Prop :=
  (∀ c ∈ f, c.cells.length = n) ∧
  (∀ c ∈ f, colHasData c = true) ∧
  (∀ i, i < n → rowHasData f i = true) ∧
  (∀ c ∈ f, normName c.name = c.name) ∧
  (∀ c ∈ f, c.dtype = Dtype.object → c.cells.map trimVal = c.cells) ∧
  (∀ c ∈ f, c.dtype = Dtype.object →
    ¬(2 * ((c.cells.map coerceCell).countP fun v => !(isNA v)) > c.cells.length)) ∧
  (∀ c ∈ f, c.dtype = Dtype.numeric → fillApply s c.cells = c.cells)

/-- Row count of a rectangular non-empty frame. -/
theorem nrows_of_const (f : Frame) (n : ℕ) (hne : f ≠ [])
    (hlen : ∀ c ∈ f, c.cells.length = n) : nrows f = n := by
  induction f with
  | nil => exact absurd rfl hne
  | cons c t ih =>
      unfold nrows
      rw [List.map_cons, List.foldr_cons]
      rcases eq_or_ne t [] with rfl | ht
      · simp only [List.map_nil, List.foldr_nil, Nat.max_zero]
        exact hlen c (List.mem_cons_self c [])
      · have hts : nrows t = n := ih ht fun c hc => hlen c (List.mem_cons_of_mem _ hc)
        unfold nrows at hts
        rw [hts, hlen c (List.mem_cons_self c t)]
        exact Nat.max_self n

/-- `dropna(how="all")` on rows is the identity on a rectangular frame all
of whose rows hold data. -/
theorem dropEmptyRows_eq_self (f : Frame) (n : ℕ)
    (hlen : ∀ c ∈ f, c.cells.length = n)
    (hrow : ∀ i, i < n → rowHasData f i = true) :
    dropEmptyRows f = f := by
  rcases eq_or_ne f [] with rfl | hne
  · rfl
  · have hn : nrows f = n := nrows_of_const f n hne hlen
    have hkeep : keepRows f = List.range n := by
      unfold keepRows
      rw [hn]
      exact List.filter_eq_self.mpr fun i hi => hrow i (List.mem_range.mp hi)
    unfold dropEmptyRows
    rw [hkeep]
    apply map_id_of_fixed
    intro c hc
    have hl := hlen c hc
    cases c with
    | mk nm dt cl =>
        simp only at hl ⊢
        have : (List.range n).map (cellAt ⟨nm, dt, cl⟩) = cl := by
          have h2 : cellAt ⟨nm, dt, cl⟩ = fun i => cl.getD i Val.na := rfl
          rw [h2, ← hl]
          exact range_map_getD cl Val.na
        rw [this]

/-- `dropna(axis=1, how="all")` is the identity when every column holds
data. -/
theorem dropEmptyCols_eq_self (f : Frame) (h : ∀ c ∈ f, colHasData c = true) :
    dropEmptyCols f = f :=
  List.filter_eq_self.mpr h

/-- Header normalisation is the identity on `normName`-fixed labels. -/
theorem normalize_headers_eq_self (f : Frame) (h : ∀ c ∈ f, normName c.name = c.name) :
    normalize_headers f = f := by
  apply map_id_of_fixed
  intro c hc
  unfold renameCol
  rw [h c hc]

/-- The trim pass is the identity on trim-fixed object columns. -/
theorem trimStrings_eq_self (f : Frame)
    (h : ∀ c ∈ f, c.dtype = Dtype.object → c.cells.map trimVal = c.cells) :
    trimStrings f = f := by
  apply map_id_of_fixed
  intro c hc
  unfold trimColCells
  by_cases hd : c.dtype = Dtype.object
  · rw [if_pos hd, h c hc hd]
  · rw [if_neg hd]

/-- The coercion pass is the identity when every object column fails the
test. -/
theorem coerce_eq_self (f : Frame)
    (h : ∀ c ∈ f, c.dtype = Dtype.object →
      ¬(2 * ((c.cells.map coerceCell).countP fun v => !(isNA v)) > c.cells.length)) :
    f.map coerceNumericCol = f := by
  apply map_id_of_fixed
  intro c hc
  unfold coerceNumericCol
  by_cases hd : c.dtype = Dtype.object
  · rw [if_pos hd, if_neg (h c hc hd)]
  · rw [if_neg hd]

/-- The fill pass is the identity on fill-fixed numeric columns. -/
theorem fill_eq_self (s : String) (f : Frame)
    (h : ∀ c ∈ f, c.dtype = Dtype.numeric → fillApply s c.cells = c.cells) :
    fillNumericCols s f = f := by
  apply map_id_of_fixed
  intro c hc
  unfold fillCol
  by_cases hd : c.dtype = Dtype.numeric
  · rw [if_pos hd, h c hc hd]
  · rw [if_neg hd]

/-- On a cleaned frame, `clean_data` is the identity. -/
theorem clean_of_cleaned (s : String) (n : ℕ) (f : Frame)
    (h : CleanedFrame s n f) : clean_data f s = f := by
  rcases h with ⟨h1, h2, h3, h4, h5, h6, h7⟩
  unfold clean_data
  rw [dropEmptyRows_eq_self f n h1 h3, dropEmptyCols_eq_self f h2,
    normalize_headers_eq_self f h4, trimStrings_eq_self f h5,
    coerce_eq_self f h6, fill_eq_self s f h7]

/-! ### The per-column composite and its case analysis -/

/-- The per-column composite `clean_data` applies after the two drops:
rename, trim, coerce, fill. -/
def procCol (s : String) (c : Col) : Col :=
  fillCol s (coerceNumericCol (trimColCells (renameCol c)))

/-- `clean_data` is the two drops followed by the per-column composite. -/
theorem clean_data_eq_proc (f : Frame) (s : String) :
    clean_data f s = ((dropEmptyRows f).filter colHasData).map (procCol s) := by
  unfold clean_data dropEmptyCols normalize_headers trimStrings fillNumericCols
  rw [List.map_map, List.map_map, List.map_map]
  rfl

/-- Renaming on an explicit column. -/
theorem renameCol_mk (nm : String) (dt : Dtype) (cl : List Val) :
    renameCol ⟨nm, dt, cl⟩ = ⟨normName nm, dt, cl⟩ := rfl

/-- Trimming an object column. -/
theorem trimColCells_object (nm : String) (cl : List Val) :
    trimColCells ⟨nm, Dtype.object, cl⟩ = ⟨nm, Dtype.object, cl.map trimVal⟩ := by
  unfold trimColCells
  rw [if_pos rfl]

/-- Trimming skips non-object columns. -/
theorem trimColCells_not_object (nm : String) (dt : Dtype) (cl : List Val)
    (h : dt ≠ Dtype.object) : trimColCells ⟨nm, dt, cl⟩ = ⟨nm, dt, cl⟩ := by
  unfold trimColCells
  rw [if_neg h]

/-- An accepting coercion on an object column. -/
theorem coerceNumericCol_object_pos (nm : String) (cl : List Val)
    (h : 2 * ((cl.map coerceCell).countP fun v => !(isNA v)) > cl.length) :
    coerceNumericCol ⟨nm, Dtype.object, cl⟩ = ⟨nm, Dtype.numeric, cl.map coerceCell⟩ := by
  unfold coerceNumericCol
  rw [if_pos rfl, if_pos h]

/-- A rejecting coercion on an object column. -/
theorem coerceNumericCol_object_neg (nm : String) (cl : List Val)
    (h : ¬(2 * ((cl.map coerceCell).countP fun v => !(isNA v)) > cl.length)) :
    coerceNumericCol ⟨nm, Dtype.object, cl⟩ = ⟨nm, Dtype.object, cl⟩ := by
  unfold coerceNumericCol
  rw [if_pos rfl, if_neg h]

/-- Coercion skips non-object columns. -/
theorem coerceNumericCol_not_object (nm : String) (dt : Dtype) (cl : List Val)
    (h : dt ≠ Dtype.object) : coerceNumericCol ⟨nm, dt, cl⟩ = ⟨nm, dt, cl⟩ := by
  unfold coerceNumericCol
  rw [if_neg h]

/-- Filling a numeric column. -/
theorem fillCol_numeric (s : String) (nm : String) (cl : List Val) :
    fillCol s ⟨nm, Dtype.numeric, cl⟩ = ⟨nm, Dtype.numeric, fillApply s cl⟩ := by
  unfold fillCol
  rw [if_pos rfl]

/-- Filling skips non-numeric columns. -/
theorem fillCol_not_numeric (s : String) (nm : String) (dt : Dtype) (cl : List Val)
    (h : dt ≠ Dtype.numeric) : fillCol s ⟨nm, dt, cl⟩ = ⟨nm, dt, cl⟩ := by
  unfold fillCol
  rw [if_neg h]

/-- The composite on an object column: either rejected (trimmed, kept as
text) or accepted (coerced then filled). -/
theorem procCol_object (s : String) (nm : String) (cl : List Val) :
    (¬(2 * (((cl.map trimVal).map coerceCell).countP fun v => !(isNA v))
          > (cl.map trimVal).length)
      ∧ procCol s ⟨nm, Dtype.object, cl⟩ = ⟨normName nm, Dtype.object, cl.map trimVal⟩)
    ∨ ((2 * (((cl.map trimVal).map coerceCell).countP fun v => !(isNA v))
          > (cl.map trimVal).length)
      ∧ procCol s ⟨nm, Dtype.object, cl⟩
          = ⟨normName nm, Dtype.numeric, fillApply s ((cl.map trimVal).map coerceCell)⟩) := by
  by_cases hc : 2 * (((cl.map trimVal).map coerceCell).countP fun v => !(isNA v))
      > (cl.map trimVal).length
  · right
    refine ⟨hc, ?_⟩
    unfold procCol
    rw [renameCol_mk, trimColCells_object, coerceNumericCol_object_pos _ _ hc, fillCol_numeric]
  · left
    refine ⟨hc, ?_⟩
    unfold procCol
    rw [renameCol_mk, trimColCells_object, coerceNumericCol_object_neg _ _ hc,
      fillCol_not_numeric _ _ _ _ (by decide)]

/-- The composite on a numeric column: rename and fill only. -/
theorem procCol_numeric (s : String) (nm : String) (cl : List Val) :
    procCol s ⟨nm, Dtype.numeric, cl⟩ = ⟨normName nm, Dtype.numeric, fillApply s cl⟩ := by
  unfold procCol
  rw [renameCol_mk, trimColCells_not_object _ _ _ (by decide),
    coerceNumericCol_not_object _ _ _ (by decide), fillCol_numeric]

/-- The composite on a datetime column: rename only. -/
theorem procCol_datetime (s : String) (nm : String) (cl : List Val) :
    procCol s ⟨nm, Dtype.datetime, cl⟩ = ⟨normName nm, Dtype.datetime, cl⟩ := by
  unfold procCol
  rw [renameCol_mk, trimColCells_not_object _ _ _ (by decide),
    coerceNumericCol_not_object _ _ _ (by decide), fillCol_not_numeric _ _ _ _ (by decide)]

/-- The composite preserves column length. -/
theorem procCol_length (s : String) (c : Col) :
    (procCol s c).cells.length = c.cells.length := by
  obtain ⟨nm, dt, cl⟩ := c
  cases dt
  case object =>
      rcases procCol_object s nm cl with ⟨_, heq⟩ | ⟨_, heq⟩ <;> rw [heq] <;>
        simp [fillApply_length]
  case numeric =>
      rw [procCol_numeric]
      simp [fillApply_length]
  case datetime =>
      rw [procCol_datetime]

/-- Trimming twice over a list is trimming once. -/
theorem map_trimVal_idem (cl : List Val) :
    (cl.map trimVal).map trimVal = cl.map trimVal := by
  rw [List.map_map]
  apply List.map_congr_left
  intro a _
  exact trimVal_idem a

/-- Trimming preserves the presence of data. -/
theorem any_notNA_map_trimVal (cl : List Val) (h : (cl.any fun v => !(isNA v)) = true) :
    ((cl.map trimVal).any fun v => !(isNA v)) = true := by
  rw [List.any_map]
  have hcomp : ((fun v => !(isNA v)) ∘ trimVal) = fun v => !(isNA v) := by
    funext v
    simp [Function.comp, isNA_trimVal]
  rw [hcomp]
  exact h

/-- A fill over accepted coerced cells leaves no missing cell. -/
theorem fillApply_coerced_no_na (s : String) (T : List Val)
    (hcnt : 0 < (T.map coerceCell).countP fun v => !(isNA v)) :
    ∀ v ∈ fillApply s (T.map coerceCell), isNA v = false := by
  have hnn : numsOf (T.map coerceCell) ≠ [] := numsOf_ne_nil_of_countP T hcnt
  have hfv : isNA (fillValFor s (numsOf (T.map coerceCell))) = false :=
    fillValFor_not_na s _ hnn
  intro v hv
  unfold fillApply at hv
  rcases List.mem_map.mp hv with ⟨w, hw, rfl⟩
  by_cases h : isNA w = true
  · rw [if_pos h]
    exact hfv
  · rw [if_neg h]
    simpa using h

/-- The composite keeps a column with data a column with data. -/
theorem procCol_hasData (s : String) (c : Col) (h : colHasData c = true) :
    colHasData (procCol s c) = true := by
  obtain ⟨nm, dt, cl⟩ := c
  have hcl : (cl.any fun v => !(isNA v)) = true := h
  cases dt
  case object =>
      rcases procCol_object s nm cl with ⟨_, heq⟩ | ⟨hacc, heq⟩ <;> rw [heq]
      · show ((cl.map trimVal).any fun v => !(isNA v)) = true
        exact any_notNA_map_trimVal cl hcl
      · show ((fillApply s ((cl.map trimVal).map coerceCell)).any fun v => !(isNA v)) = true
        have hcnt : 0 < ((cl.map trimVal).map coerceCell).countP fun v => !(isNA v) := by
          omega
        rcases List.countP_pos_iff.mp hcnt with ⟨v, hv, hp⟩
        have hvna : isNA v = false := by simpa using hp
        exact List.any_eq_true.mpr
          ⟨v, mem_fillApply_of_mem s _ v hv hvna, by simp [hvna]⟩
  case numeric =>
      rw [procCol_numeric]
      show ((fillApply s cl).any fun v => !(isNA v)) = true
      rcases List.any_eq_true.mp hcl with ⟨v, hv, hp⟩
      have hvna : isNA v = false := by simpa using hp
      exact List.any_eq_true.mpr ⟨v, mem_fillApply_of_mem s cl v hv hvna, by simp [hvna]⟩
  case datetime =>
      rw [procCol_datetime]
      exact hcl

/-- `getD` inside the range is the indexed element. -/
theorem getD_eq_getElem_of_lt {α : Type} (l : List α) (d : α) (i : ℕ)
    (h : i < l.length) : l.getD i d = l[i] := by
  rw [List.getD_eq_getElem?_getD, List.getElem?_eq_getElem h]
  rfl

/-- Columns coming out of the row-drop all have the kept-row count as
length. -/
theorem dropEmptyRows_len (f : Frame) (c : Col) (h : c ∈ dropEmptyRows f) :
    c.cells.length = (keepRows f).length := by
  unfold dropEmptyRows at h
  rcases List.mem_map.mp h with ⟨c0, _, rfl⟩
  simp

/-- Every kept row of the row-drop output still holds data. -/
theorem dropEmptyRows_rows (f : Frame) (i : ℕ) (h : i < (keepRows f).length) :
    rowHasData (dropEmptyRows f) i = true := by
  have hjmem : (keepRows f)[i] ∈ keepRows f := List.getElem_mem h
  have hrow : rowHasData f (keepRows f)[i] = true := by
    unfold keepRows at hjmem
    exact (List.mem_filter.mp hjmem).2
  rcases List.any_eq_true.mp hrow with ⟨c, hcf, hcp⟩
  refine List.any_eq_true.mpr ⟨{ c with cells := (keepRows f).map (cellAt c) }, ?_, ?_⟩
  · unfold dropEmptyRows
    exact List.mem_map_of_mem _ hcf
  · have hcell2 : isNA (cellAt { c with cells := (keepRows f).map (cellAt c) } i) = false := by
      show isNA (((keepRows f).map (cellAt c)).getD i Val.na) = false
      rw [getD_map_lt (cellAt c) (keepRows f) i h]
      simpa using hcp
    simp [hcell2]

/-- Rows with data survive the column filter and the per-column
composite. -/
theorem rowHasData_proc (s : String) (f1 : Frame) (n i : ℕ)
    (hlen : ∀ c ∈ f1, c.cells.length = n) (hi : i < n)
    (hrow : rowHasData f1 i = true) :
    rowHasData ((f1.filter colHasData).map (procCol s)) i = true := by
  rcases List.any_eq_true.mp hrow with ⟨c, hcf, hcp⟩
  have hcna : isNA (cellAt c i) = false := by simpa using hcp
  have hclen : c.cells.length = n := hlen c hcf
  have hilt : i < c.cells.length := by omega
  have hcd : colHasData c = true := by
    refine List.any_eq_true.mpr ⟨cellAt c i, ?_, by simp [hcna]⟩
    have hg : cellAt c i = c.cells[i] := getD_eq_getElem_of_lt c.cells Val.na i hilt
    rw [hg]
    exact List.getElem_mem hilt
  refine List.any_eq_true.mpr
    ⟨procCol s c, List.mem_map_of_mem _ (List.mem_filter.mpr ⟨hcf, hcd⟩), ?_⟩
  suffices hres : isNA (cellAt (procCol s c) i) = false by simpa using hres
  obtain ⟨nm, dt, cl⟩ := c
  have hcna' : isNA (cl.getD i Val.na) = false := hcna
  have hilt' : i < cl.length := hilt
  have hcnaE : isNA cl[i] = false := by
    rw [← getD_eq_getElem_of_lt cl Val.na i hilt']
    exact hcna'
  cases dt
  case object =>
      rcases procCol_object s nm cl with ⟨_, heq⟩ | ⟨hacc, heq⟩ <;> rw [heq]
      · show isNA ((cl.map trimVal).getD i Val.na) = false
        rw [getD_map_lt trimVal cl i hilt', isNA_trimVal]
        exact hcnaE
      · show isNA ((fillApply s ((cl.map trimVal).map coerceCell)).getD i Val.na) = false
        have hcnt : 0 < ((cl.map trimVal).map coerceCell).countP fun v => !(isNA v) := by
          omega
        have hlen2 : i < (fillApply s ((cl.map trimVal).map coerceCell)).length := by
          rw [fillApply_length]
          simpa using hilt'
        have hmem : (fillApply s ((cl.map trimVal).map coerceCell)).getD i Val.na
            ∈ fillApply s ((cl.map trimVal).map coerceCell) := by
          rw [getD_eq_getElem_of_lt _ Val.na i hlen2]
          exact List.getElem_mem hlen2
        exact fillApply_coerced_no_na s (cl.map trimVal) hcnt _ hmem
  case numeric =>
      rw [procCol_numeric]
      show isNA ((fillApply s cl).getD i Val.na) = false
      rw [fillApply_getD s cl i hilt' hcna']
      exact hcna'
  case datetime =>
      rw [procCol_datetime]
      exact hcna'

/-- The composite's output satisfies the per-column clauses of
`CleanedFrame`. -/
theorem procCol_props (s : String) (c0 : Col) :
    (normName (procCol s c0).name = (procCol s c0).name)
    ∧ ((procCol s c0).dtype = Dtype.object →
        (procCol s c0).cells.map trimVal = (procCol s c0).cells)
    ∧ ((procCol s c0).dtype = Dtype.object →
        ¬(2 * (((procCol s c0).cells.map coerceCell).countP fun v => !(isNA v))
            > (procCol s c0).cells.length))
    ∧ ((procCol s c0).dtype = Dtype.numeric →
        fillApply s (procCol s c0).cells = (procCol s c0).cells) := by
  obtain ⟨nm, dt, cl⟩ := c0
  cases dt
  case object =>
      rcases procCol_object s nm cl with ⟨hrej, heq⟩ | ⟨hacc, heq⟩ <;> rw [heq]
      · exact ⟨normName_idem nm, fun _ => map_trimVal_idem cl, fun _ => hrej,
          fun hd => by simp at hd⟩
      · exact ⟨normName_idem nm, fun hd => by simp at hd,
          fun hd => by simp at hd, fun _ => fillApply_idem s _⟩
  case numeric =>
      rw [procCol_numeric]
      exact ⟨normName_idem nm, fun hd => by simp at hd,
        fun hd => by simp at hd, fun _ => fillApply_idem s cl⟩
  case datetime =>
      rw [procCol_datetime]
      exact ⟨normName_idem nm, fun hd => by simp at hd,
        fun hd => by simp at hd, fun hd => by simp at hd⟩

/-- The output of `clean_data` is a cleaned frame. -/
theorem cleaned_clean (f : Frame) (s : String) :
    CleanedFrame s (keepRows f).length (clean_data f s) := by
  rw [clean_data_eq_proc]
  have hmem : ∀ c ∈ ((dropEmptyRows f).filter colHasData).map (procCol s),
      ∃ c0, c0 ∈ dropEmptyRows f ∧ colHasData c0 = true ∧ c = procCol s c0 := by
    intro c hc
    rcases List.mem_map.mp hc with ⟨c0, hc0, rfl⟩
    have hf := List.mem_filter.mp hc0
    exact ⟨c0, hf.1, hf.2, rfl⟩
  refine ⟨?_, ?_, ?_, ?_, ?_, ?_, ?_⟩
  · intro c hc
    rcases hmem c hc with ⟨c0, h0, _, rfl⟩
    rw [procCol_length]
    exact dropEmptyRows_len f c0 h0
  · intro c hc
    rcases hmem c hc with ⟨c0, _, hd, rfl⟩
    exact procCol_hasData s c0 hd
  · intro i hi
    exact rowHasData_proc s (dropEmptyRows f) (keepRows f).length i
      (fun c hc => dropEmptyRows_len f c hc) hi (dropEmptyRows_rows f i hi)
  · intro c hc
    rcases hmem c hc with ⟨c0, _, _, rfl⟩
    exact (procCol_props s c0).1
  · intro c hc
    rcases hmem c hc with ⟨c0, _, _, rfl⟩
    exact (procCol_props s c0).2.1
  · intro c hc
    rcases hmem c hc with ⟨c0, _, _, rfl⟩
    exact (procCol_props s c0).2.2.1
  · intro c hc
    rcases hmem c hc with ⟨c0, _, _, rfl⟩
    exact (procCol_props s c0).2.2.2

/-- C8: cleaning is idempotent — applying `clean_data` to an already
cleaned frame returns an identical frame (same columns, values and
dtypes).  Distinct normalised labels delimit the claim's domain: with
duplicate labels the Python code raises (`df[c].dtype` on a
sub-DataFrame) rather than returning a frame. -/
theorem clean_data_idempotent (d : Frame) (s : String)
    (hnd : (d.map fun c => normName c.name).Nodup) :
    clean_data (clean_data d s) s = clean_data d s :=
  clean_of_cleaned s (keepRows d).length (clean_data d s) (cleaned_clean d s)

/-- Concrete mixed frame for the C8 instance. -/
def frameW8 : Frame :=
  [⟨" amt ", Dtype.object, [Val.vstr " 1,200 ", Val.vstr "$300", Val.vstr "NA", Val.na]⟩,
   ⟨"cat\nx", Dtype.object, [Val.vstr "a", Val.vstr "b", Val.na, Val.na]⟩]

/-- Witness for `clean_data_idempotent` at a concrete frame. -/
theorem clean_data_idempotent_witness :
    clean_data (clean_data frameW8 "median") "median" = clean_data frameW8 "median" :=
  clean_data_idempotent frameW8 "median" (by decide)

end ProVA
